import Mathlib

/-!
# mackerel-plugin-ecs-task-metrics: target resolution and collection

A shallow embedding of `main.go`: the endpoint resolver (`listTasks`,
`getTargetList`, `createArnToAddrMap`, `extractIDFromArn`), the metric collector
(`printMetrics`) and the meta collector (`getMetricsMeta`, `printMetricsMeta`).

Conventions of the embedding.

* A Go `string` is a Lean `String` (byte sequences that are not UTF-8 are left out;
  `/` is one byte and never part of a longer character, so splitting at the character
  `/` is splitting at the byte); a `*string` is an `Option String` (`none` is the nil
  pointer) and `aws.StringValue` reads it. An `*int64` is an `Option Int`.
  `int` is taken to be 64 bits wide, so `int64(c.port)` and `int(x)` convert nothing.
* A Go slice is a `List`; a nil slice is the empty list wherever the code only
  ranges over it or takes its length. Where the code returns a slice next to an
  `error`, the slice is an `Option (List _)` and `none` is the nil slice.
* The AWS services are taken as parameters (`Inventory`). Every call is appended to
  a log of calls, and a service answers a call as a function of the calls made
  before it: this covers every deterministic provider, and the log is what the
  theorems about "which calls are issued" speak about.
* The two pagination loops take a fuel argument (the number of iterations allowed);
  `Outcome.outOfFuel` is the run that was cut.
* The elements of the slices the services return (tasks, containers, bindings,
  interfaces, instances) are not nil pointers.
* The HTTP client and the library functions `json.Unmarshal`, `json.Marshal` and
  `http.NewRequest` are parameters (`World`). `bufio.Scanner` with its default split
  function `ScanLines` and its buffer of 64 KiB is written out (`bufio.Scanner`), and
  so is `ioutil.ReadAll`. The goroutines of `printMetrics` run under a schedule that
  is a parameter too; what the collectors write to standard error is left out.
-/

namespace EcsTaskMetrics

/-! ## Go values -/

/-- Go `error` values: only their identity matters. -/
abbrev Error := String

/-- Reading of a `*string` by `aws.StringValue`: the empty string for nil. -/
def aws.StringValue (p : Option String) : String :=
  match p with
  | some s => s
  | none => ""

/-- Reading of a `*int64` by `aws.Int64Value`: zero for nil. -/
def aws.Int64Value (p : Option Int) : Int :=
  match p with
  | some n => n
  | none => 0

/-- Splitting of a character sequence at every occurrence of a one-character
separator, as `strings.Split` does for a one-byte separator: `n` occurrences give
`n + 1` parts, and the empty input gives the single empty part. -/
def strings.splitChars (sep : Char) : List Char → List (List Char)
  | [] => [[]]
  | c :: cs =>
    if c = sep then [] :: strings.splitChars sep cs
    else
      match strings.splitChars sep cs with
      | p :: ps => (c :: p) :: ps
      | [] => [[c]]

/-- The call `strings.Split(s, sep)` for a separator of one character. -/
def strings.Split (s : String) (sep : Char) : List String :=
  (strings.splitChars sep s.data).map String.mk

/-- The index expression `parts[len(parts)-1]` of `extractIDFromArn`, checked:
`none` stands for the index-out-of-range panic. -/
def extractIDFromArnChecked (arn : Option String) : Option String :=
  let parts := strings.Split (aws.StringValue arn) '/'
  parts[parts.length - 1]?

/-- The function `extractIDFromArn`: the last part of the ARN split at `/`. -/
def extractIDFromArn (arn : Option String) : String :=
  (extractIDFromArnChecked arn).getD ""

/-! ## Go maps -/

/-- A Go `map[string]V`: a finite map with distinct keys. -/
abbrev GoMap (V : Type) := AList (fun _ : String => V)

/-- The statement `m[k] = v`. -/
def GoMap.set {V : Type} (m : GoMap V) (k : String) (v : V) : GoMap V :=
  AList.insert k v m

/-- The two-valued read `v, ok := m[k]`: `none` when the key is absent. -/
def GoMap.get? {V : Type} (m : GoMap V) (k : String) : Option V :=
  AList.lookup k m

/-- The one-valued read `m[k]` of a `map[string]string`: the empty string when the
key is absent. -/
def GoMap.get (m : GoMap String) (k : String) : String :=
  (m.get? k).getD ""

/-- The order in which one `range` statement visits the entries of a map: Go leaves
it unspecified, so it is a parameter of the run, some rearrangement of the entries. -/
structure RangeOrder (V : Type) where
  order : List (Sigma (fun _ : String => V)) → List (Sigma (fun _ : String => V))
  perm : ∀ l, (order l).Perm l

/-- The entries of a map in the order a `range` statement visits them. -/
def GoMap.range {V : Type} (ρ : RangeOrder V) (m : GoMap V) : List (String × V) :=
  (ρ.order m.entries).map (fun e => (e.1, e.2))

/-- The range order that visits the entries as they are stored. -/
def RangeOrder.stored (V : Type) : RangeOrder V :=
  ⟨fun l => l, fun l => List.Perm.refl l⟩

/-- The range order that visits the entries in reverse. -/
def RangeOrder.reversed (V : Type) : RangeOrder V :=
  ⟨fun l => l.reverse, fun l => List.reverse_perm l⟩

/-- The function `keys`: the keys of a map, in range order. -/
def keys (ρ : RangeOrder String) (src : GoMap String) : List String :=
  (src.range ρ).foldl (fun ret kv => ret ++ [kv.1]) []

/-- The function `distinct`: the strings of `src` without repetition, as the keys of
a map that has each of them as a key. -/
def distinct (ρ : RangeOrder String) (src : List String) : List String :=
  let m := src.foldl (fun (m : GoMap String) v => m.set v "") ∅
  keys ρ m

/-! ## The inventory service -/

/-- An `ecs.NetworkInterface` of a container, as far as the code reads it. -/
structure NetworkInterface where
  PrivateIpv4Address : Option String
  deriving DecidableEq

/-- An `ecs.NetworkBinding`, as far as the code reads it. -/
structure NetworkBinding where
  ContainerPort : Option Int
  HostPort : Option Int
  deriving DecidableEq

/-- An `ecs.Container`, as far as the code reads it. -/
structure Container where
  Name : Option String
  NetworkInterfaces : List NetworkInterface
  NetworkBindings : List NetworkBinding
  deriving DecidableEq

/-- An `ecs.Task`, as far as the code reads it. -/
structure Task where
  TaskArn : Option String
  ContainerInstanceArn : Option String
  Containers : List Container
  deriving DecidableEq

/-- An `ecs.ListTasksOutput`. -/
structure ListTasksOutput where
  TaskArns : List (Option String)
  NextToken : Option String
  deriving DecidableEq

/-- An `ecs.DescribeTasksOutput`. -/
structure DescribeTasksOutput where
  Tasks : List Task
  deriving DecidableEq

/-- An `ecs.ContainerInstance`, as far as the code reads it. -/
structure ContainerInstance where
  Ec2InstanceId : Option String
  ContainerInstanceArn : Option String
  deriving DecidableEq

/-- An `ecs.DescribeContainerInstancesOutput`. -/
structure DescribeContainerInstancesOutput where
  ContainerInstances : List ContainerInstance
  deriving DecidableEq

/-- An `ec2.InstanceNetworkInterface`, as far as the code reads it. -/
structure InstanceNetworkInterface where
  PrivateIpAddress : Option String
  deriving DecidableEq

/-- An `ec2.Instance`, as far as the code reads it. -/
structure Instance where
  InstanceId : Option String
  NetworkInterfaces : List InstanceNetworkInterface
  deriving DecidableEq

/-- An `ec2.Reservation`. -/
structure Reservation where
  Instances : List Instance
  deriving DecidableEq

/-- An `ec2.DescribeInstancesOutput`. -/
structure DescribeInstancesOutput where
  Reservations : List Reservation
  NextToken : Option String
  deriving DecidableEq

/-- One call to the inventory, with the input the code builds for it. -/
inductive Call where
  | ListTasks (cluster service : String) (nextToken : Option String)
  | DescribeTasks (cluster : String) (tasks : List (Option String))
  | DescribeContainerInstances (cluster : String) (containerInstances : List String)
  | DescribeInstances (instanceIds : List String) (nextToken : Option String)
  deriving DecidableEq

/-- The cloud inventory (`c.ecsService` and the EC2 client made from `c.session`) and
the range orders of one run. Each service function is given the calls made before
the present one, then the present call's input. -/
structure Inventory where
  ListTasks : List Call → String → String → Option String → Except Error ListTasksOutput
  DescribeTasks : List Call → String → List (Option String) → Except Error DescribeTasksOutput
  DescribeContainerInstances :
    List Call → String → List String → Except Error DescribeContainerInstancesOutput
  DescribeInstances :
    List Call → List String → Option String → Except Error DescribeInstancesOutput
  rangeDistinct : RangeOrder String
  rangeKeys : RangeOrder String

/-- The error, if any, with which the inventory answers `call` after `history`. -/
def Inventory.errorOf (inv : Inventory) (history : List Call) (call : Call) : Option Error :=
  match call with
  | .ListTasks cluster service tok =>
    match inv.ListTasks history cluster service tok with
    | .error e => some e
    | .ok _ => none
  | .DescribeTasks cluster tasks =>
    match inv.DescribeTasks history cluster tasks with
    | .error e => some e
    | .ok _ => none
  | .DescribeContainerInstances cluster arns =>
    match inv.DescribeContainerInstances history cluster arns with
    | .error e => some e
    | .ok _ => none
  | .DescribeInstances ids tok =>
    match inv.DescribeInstances history ids tok with
    | .error e => some e
    | .ok _ => none

/-- How a run of a function with a pagination loop ends: it returns, or the fuel
given to the loop is used up first. -/
inductive Outcome (α : Type) where
  | returned (a : α)
  | outOfFuel
  deriving DecidableEq

/-! ## The resolver -/

/-- The fields of `config` the resolver reads; `session` and `ecsService` are the
`Inventory`. -/
structure config where
  cluster : String
  service : String
  containerName : String
  port : Int
  networkMode : String
  deriving DecidableEq

/-- The struct `target`. -/
structure target where
  id : String
  host : String
  port : Int
  deriving DecidableEq

/-- The loop of `listTasks`, entered with the task ARNs gathered so far, the token
to send and the log of calls. -/
def listTasksLoop (inv : Inventory) (c : config) :
    Nat → List (Option String) → Option String → List Call →
      Outcome (Option (List (Option String)) × Option Error) × List Call
  | 0, _, _, log => (.outOfFuel, log)
  | fuel + 1, ret, nextToken, log =>
    let log1 := log ++ [Call.ListTasks c.cluster c.service nextToken]
    match inv.ListTasks log c.cluster c.service nextToken with
    | .error err => (.returned (none, some err), log1)
    | .ok list =>
      let ret := ret ++ list.TaskArns
      let nextToken := list.NextToken
      if nextToken = none ∨ aws.StringValue nextToken = "" then
        (.returned (some ret, none), log1)
      else
        listTasksLoop inv c fuel ret nextToken log1

/-- The method `listTasks`. -/
def listTasks (inv : Inventory) (c : config) (fuel : Nat) (log : List Call) :
    Outcome (Option (List (Option String)) × Option Error) × List Call :=
  listTasksLoop inv c fuel [] none log

/-- The body of the loop over `desc.Reservations` in `createArnToAddrMap`. -/
def addReservations (idToArn : GoMap String) (arnToHost : GoMap String)
    (reservations : List Reservation) : GoMap String :=
  reservations.foldl (fun arnToHost r =>
    r.Instances.foldl (fun arnToHost i =>
      match i.NetworkInterfaces with
      | ni :: _ =>
        let arn := idToArn.get (aws.StringValue i.InstanceId)
        arnToHost.set arn (aws.StringValue ni.PrivateIpAddress)
      | [] => arnToHost) arnToHost) arnToHost

/-- The pagination loop of `createArnToAddrMap` over `DescribeInstances`. -/
def describeInstancesLoop (inv : Inventory) (idToArn : GoMap String) (ids : List String) :
    Nat → Option String → GoMap String → List Call →
      Outcome (Option (GoMap String) × Option Error) × List Call
  | 0, _, _, log => (.outOfFuel, log)
  | fuel + 1, nextToken, arnToHost, log =>
    let log1 := log ++ [Call.DescribeInstances ids nextToken]
    match inv.DescribeInstances log ids nextToken with
    | .error err => (.returned (none, some err), log1)
    | .ok desc =>
      let arnToHost := addReservations idToArn arnToHost desc.Reservations
      let nextToken := desc.NextToken
      if nextToken = none ∨ aws.StringValue nextToken = "" then
        (.returned (some arnToHost, none), log1)
      else
        describeInstancesLoop inv idToArn ids fuel nextToken arnToHost log1

/-- The method `createArnToAddrMap`. -/
def createArnToAddrMap (inv : Inventory) (c : config) (fuel : Nat) (log : List Call)
    (tasks : List Task) : Outcome (Option (GoMap String) × Option Error) × List Call :=
  let arns := tasks.foldl (fun arns t => arns ++ [aws.StringValue t.ContainerInstanceArn]) []
  let arns := distinct inv.rangeDistinct arns
  let log1 := log ++ [Call.DescribeContainerInstances c.cluster arns]
  match inv.DescribeContainerInstances log c.cluster arns with
  | .error err => (.returned (none, some err), log1)
  | .ok desc =>
    let idToArn := desc.ContainerInstances.foldl (fun (idToArn : GoMap String) d =>
      idToArn.set (aws.StringValue d.Ec2InstanceId) (aws.StringValue d.ContainerInstanceArn)) ∅
    let ids := keys inv.rangeKeys idToArn
    describeInstancesLoop inv idToArn ids fuel none ∅ log1

/-- The loop of the `"awsvpc"` case of `getTargetList`. -/
def awsvpcLoop (c : config) (ret : List target) (tasks : List Task) : List target :=
  tasks.foldl (fun ret task =>
    task.Containers.foldl (fun ret container =>
      if aws.StringValue container.Name = c.containerName then
        match container.NetworkInterfaces with
        | ni :: _ =>
          let addr := ni.PrivateIpv4Address
          ret ++ [{ id := extractIDFromArn task.TaskArn, host := aws.StringValue addr,
                    port := c.port }]
        | [] => ret
      else ret) ret) ret

/-- The loop of the `"bridge"` case of `getTargetList`. -/
def bridgeLoop (c : config) (arnToAddr : GoMap String) (ret : List target)
    (tasks : List Task) : List target :=
  tasks.foldl (fun ret task =>
    task.Containers.foldl (fun ret container =>
      if aws.StringValue container.Name = c.containerName then
        container.NetworkBindings.foldl (fun ret b =>
          if aws.Int64Value b.ContainerPort = c.port then
            match arnToAddr.get? (aws.StringValue task.ContainerInstanceArn) with
            | some addr =>
              ret ++ [{ id := extractIDFromArn task.TaskArn, host := addr,
                        port := aws.Int64Value b.HostPort }]
            | none => ret
          else ret) ret
      else ret) ret) ret

/-- The loop of the `"host"` case of `getTargetList`. -/
def hostLoop (c : config) (arnToAddr : GoMap String) (ret : List target)
    (tasks : List Task) : List target :=
  tasks.foldl (fun ret task =>
    match arnToAddr.get? (aws.StringValue task.ContainerInstanceArn) with
    | some addr =>
      ret ++ [{ id := extractIDFromArn task.TaskArn, host := addr, port := c.port }]
    | none => ret) ret

/-- The method `getTargetList`. -/
def getTargetList (inv : Inventory) (c : config) (fuel : Nat) (log : List Call) :
    Outcome (Option (List target) × Option Error) × List Call :=
  match listTasks inv c fuel log with
  | (.outOfFuel, log1) => (.outOfFuel, log1)
  | (.returned (_, some err), log1) => (.returned (none, some err), log1)
  | (.returned (tasks, none), log1) =>
    let tasks := tasks.getD []
    let ret : List target := []
    if tasks.length = 0 then (.returned (some ret, none), log1)
    else
      let log2 := log1 ++ [Call.DescribeTasks c.cluster tasks]
      match inv.DescribeTasks log1 c.cluster tasks with
      | .error err => (.returned (none, some err), log2)
      | .ok desc =>
        if c.networkMode = "awsvpc" then
          (.returned (some (awsvpcLoop c ret desc.Tasks), none), log2)
        else if c.networkMode = "bridge" then
          match createArnToAddrMap inv c fuel log2 desc.Tasks with
          | (.outOfFuel, log3) => (.outOfFuel, log3)
          | (.returned (_, some err), log3) => (.returned (none, some err), log3)
          | (.returned (arnToAddr, none), log3) =>
            (.returned (some (bridgeLoop c (arnToAddr.getD ∅) ret desc.Tasks), none), log3)
        else if c.networkMode = "host" then
          match createArnToAddrMap inv c fuel log2 desc.Tasks with
          | (.outOfFuel, log3) => (.outOfFuel, log3)
          | (.returned (_, some err), log3) => (.returned (none, some err), log3)
          | (.returned (arnToAddr, none), log3) =>
            (.returned (some (hostLoop c (arnToAddr.getD ∅) ret desc.Tasks), none), log3)
        else
          (.returned (some ret, none), log2)

/-! ## The HTTP side -/

/-- The body of an HTTP response as a stream: the bytes that arrive and, when the
stream breaks instead of ending, the read error. -/
structure Body where
  data : String
  err : Option Error
  deriving DecidableEq

/-- An `http.Response`, as far as the code reads it: the status code, the values
`Header.Get` gives for `Content-Type` and `X-MACKEREL-AGENT-PLUGIN-META` (the empty
string for a header that is not there) and the body. -/
structure Response where
  StatusCode : Int
  ContentType : String
  MetaHeader : String
  Body : Body
  deriving DecidableEq

/-- An `http.Request` as the code builds it: method, URL and the value of the
`X-MACKEREL-AGENT-PLUGIN-META` header. -/
structure Request where
  Method : String
  URL : String
  MetaHeader : String
  deriving DecidableEq

/-- The struct `mackerelplugin.Graphs`; the type `μ` of a metric definition is the
library's and the code never looks into it. -/
structure Graphs (μ : Type) where
  Label : String
  Unit : String
  Metrics : List μ
  deriving DecidableEq

/-- The struct `Meta`. -/
structure Meta (μ : Type) where
  Graphs : GoMap (Graphs μ)

/-- What surrounds the collectors: the HTTP client and the library functions whose
results the code branches on.

* `Get i url` answers the GET that the goroutine of the target at position `i` issues.
* `NewRequest url` is the error of `http.NewRequest`, if any.
* `Do history req` answers `httpClient.Do(req)` after the requests of `history`.
* `EndsWithData i` tells how the body of that answer ends: whether its last `Read`
  returns the last bytes together with the end of the stream (`io.EOF` or the read
  error), which an `io.Reader` may do or not.
* `Unmarshal` and `Marshal` are `json.Unmarshal` into a `Meta` and `json.Marshal`
  of one.
* `rangeGraphs` is the order of the `range` over `srcMeta.Graphs`. -/
structure World (μ : Type) where
  Get : Nat → String → Except Error Response
  NewRequest : String → Option Error
  Do : List Request → Request → Except Error Response
  EndsWithData : Nat → Bool
  Unmarshal : String → Except Error (Meta μ)
  Marshal : Meta μ → Except Error String
  rangeGraphs : RangeOrder (Graphs μ)

/-- The call `ioutil.ReadAll(res.Body)`. -/
def ioutil.ReadAll (b : Body) : Except Error String :=
  match b.err with
  | none => .ok b.data
  | some err => .error err

/-- The URL `fmt.Sprintf("http://%s:%d/", t.host, t.port)`. -/
def targetURL (t : target) : String :=
  "http://" ++ t.host ++ ":" ++ toString t.port ++ "/"

/-- The constant `bufio.MaxScanTokenSize`: the size a scanner's buffer grows to. -/
def bufio.MaxScanTokenSize : Nat := 64 * 1024

/-- The error `bufio.ErrTooLong`. -/
def bufio.ErrTooLong : Error := "bufio.Scanner: token too long"

/-- The number of bytes of a sequence of characters in UTF-8. -/
def byteLen (cs : List Char) : Nat :=
  (cs.map Char.utf8Size).sum

/-- The function `dropCR` of package `bufio`: the line without one trailing `\r`. -/
def bufio.dropCR (line : List Char) : List Char :=
  if line.getLast? = some '\r' then line.dropLast else line

/-- The tokens a `bufio.Scanner` with the split function `bufio.ScanLines` yields, and
whether it stopped with `ErrTooLong`, over the parts the input has between its `\n`
(the last part is what follows the last `\n`).

A part that a `\n` ends is yielded, without a trailing `\r`, when the buffer of
`MaxScanTokenSize` bytes holds it together with its `\n`, that is when it is shorter
than `MaxScanTokenSize` bytes; a longer one fills the buffer before its `\n` is seen
and the scanner stops. The last part is not yielded when it is empty; it is yielded
at the end of the stream when it is shorter than `MaxScanTokenSize`, or exactly that
long and the read that fills the buffer also reports the end of the stream. -/
def bufio.scanTokens (endsWithData : Bool) : List (List Char) → List String × Option Error
  | [] => ([], none)
  | part :: rest =>
    if rest.isEmpty then
      if part.isEmpty then ([], none)
      else if byteLen part < bufio.MaxScanTokenSize ∨
          (byteLen part = bufio.MaxScanTokenSize ∧ endsWithData = true) then
        ([String.mk (bufio.dropCR part)], none)
      else ([], some bufio.ErrTooLong)
    else
      if bufio.MaxScanTokenSize ≤ byteLen part then ([], some bufio.ErrTooLong)
      else
        let r := bufio.scanTokens endsWithData rest
        (String.mk (bufio.dropCR part) :: r.1, r.2)

/-- A `bufio.Scanner` made by `bufio.NewScanner` over a body and run until `Scan`
returns false: the `Text()` of every successful `Scan`, in order, and the final
`Err()`. A stream that breaks is scanned like one that ends, and then `Err()` is the
read error. (A reader that makes no progress, hence `io.ErrNoProgress`, is left out.) -/
def bufio.Scanner (endsWithData : Bool) (b : Body) : List String × Option Error :=
  let r := bufio.scanTokens endsWithData (strings.splitChars '\n' b.data.data)
  (r.1, match r.2 with
        | some err => some err
        | none => b.err)

/-- The lines one goroutine of `printMetrics` prints to standard output, in order,
for the target `t` at position `i` (what it writes to standard error is left out). -/
def printMetricsWorker {μ : Type} (w : World μ) (service : String) (i : Nat) (t : target) :
    List String :=
  let url := targetURL t
  match w.Get i url with
  | .error _ => []
  | .ok res =>
    if res.StatusCode ≠ 200 ∨ res.ContentType ≠ "text/plain" then []
    else
      (bufio.Scanner (w.EndsWithData i) res.Body).1.foldl
        (fun out text => out ++ [service ++ "." ++ t.id ++ "." ++ text]) []

/-- Standard output under a schedule. Each goroutine has a queue of lines still to
print; one `fmt.Println` writes one line in a single write, so lines of different
goroutines interleave whole. Each entry of the schedule names the goroutine that
prints next (an entry naming a goroutine with nothing left is skipped); when the
schedule is used up the goroutines left finish one after the other. -/
def runGoroutines : List Nat → List (List String) → List String
  | [], queues => queues.flatten
  | i :: sched, queues =>
    match queues[i]? with
    | some (line :: rest) => line :: runGoroutines sched (queues.set i rest)
    | _ => runGoroutines sched queues

/-- The function `printMetrics`: what it writes to standard output under the
schedule `sched` of its goroutines, one goroutine per target, all joined by
`wg.Wait()`. -/
def printMetrics {μ : Type} (w : World μ) (sched : List Nat) (service : String)
    (list : List target) : List String :=
  runGoroutines sched (list.enum.map (fun it => printMetricsWorker w service it.1 it.2))

/-- The function `getMetricsMeta`: `(meta, nil)` is `.ok meta`, `(nil, err)` is
`.error err`; the second component is the log of requests sent. -/
def getMetricsMeta {μ : Type} (w : World μ) (log : List Request) (t : target) :
    Except Error (Meta μ) × List Request :=
  let url := targetURL t
  match w.NewRequest url with
  | some err => (.error err, log)
  | none =>
    let req : Request := { Method := "GET", URL := url, MetaHeader := "1" }
    let log1 := log ++ [req]
    match w.Do log req with
    | .error err => (.error err, log1)
    | .ok res =>
      if res.StatusCode ≠ 200 ∨ res.ContentType ≠ "text/json" ∨ res.MetaHeader ≠ "1" then
        (.error "invalid responce", log1)
      else
        match ioutil.ReadAll res.Body with
        | .error err => (.error err, log1)
        | .ok b =>
          match w.Unmarshal b with
          | .error err => (.error err, log1)
          | .ok m => (.ok m, log1)

/-- The graph `g` with the label `fmt.Sprintf("[%s] %s", service, g.Label)`. -/
def relabel {μ : Type} (service : String) (g : Graphs μ) : Graphs μ :=
  { g with Label := "[" ++ service ++ "] " ++ g.Label }

/-- The loop that fills `dstMeta.Graphs` in `printMetricsMeta`. -/
def rewriteGraphs {μ : Type} (ρ : RangeOrder (Graphs μ)) (service : String)
    (src : GoMap (Graphs μ)) : GoMap (Graphs μ) :=
  (src.range ρ).foldl (fun dst kg => dst.set (service ++ ".#." ++ kg.1) (relabel service kg.2)) ∅

/-- A run of `printMetricsMeta`: the lines written to standard output, the value it
panicked with if it did, and the requests sent. -/
structure MetaRun where
  stdout : List String
  panicked : Option Error
  log : List Request
  deriving DecidableEq

/-- The loop of `printMetricsMeta` over the targets. -/
def printMetricsMetaLoop {μ : Type} (w : World μ) (service : String) :
    List target → List String → List Request → MetaRun
  | [], out, log => { stdout := out, panicked := none, log := log }
  | t :: rest, out, log =>
    match getMetricsMeta w log t with
    | (.error _, log1) => printMetricsMetaLoop w service rest out log1
    | (.ok srcMeta, log1) =>
      let dstMeta : Meta μ := { Graphs := rewriteGraphs w.rangeGraphs service srcMeta.Graphs }
      match w.Marshal dstMeta with
      | .error err => { stdout := out, panicked := some err, log := log1 }
      | .ok b => { stdout := out ++ [b], panicked := none, log := log1 }

/-- The function `printMetricsMeta`. -/
def printMetricsMeta {μ : Type} (w : World μ) (service : String) (list : List target) :
    MetaRun :=
  printMetricsMetaLoop w service list ["# mackerel-agent-plugin"] []

/-! ## Predicates on the log of calls -/

/-- Every call of `made`, issued in this order after `history`, is answered without
an error. -/
def callsOk (inv : Inventory) : List Call → List Call → Prop
  | _, [] => True
  | history, call :: rest =>
    inv.errorOf history call = none ∧ callsOk inv (history ++ [call]) rest

/-- What every run of the resolver satisfies: the log grows by the calls `made`,
and either none of them failed, or the last one is the only one that failed and the
run returned its error with a nil value. -/
def RunInv {α : Type} (inv : Inventory) (log0 : List Call)
    (r : Outcome (Option α × Option Error) × List Call) : Prop :=
  ∃ made, r.2 = log0 ++ made ∧
    (callsOk inv log0 made ∨
      ∃ pre call e, made = pre ++ [call] ∧ callsOk inv log0 pre ∧
        inv.errorOf (log0 ++ pre) call = some e ∧ r.1 = .returned (none, some e))

/-- The calls `listTasks` issues when the pages before the last are `pages`: the
first without a token, each later one with the token of the page before it. -/
def listTasksCalls (c : config) (pages : List ListTasksOutput) : List Call :=
  (none :: pages.map (fun p => p.NextToken)).map (Call.ListTasks c.cluster c.service)

/-! ## What the three network modes are expected to return -/

/-- Every (task, container) pair of the described tasks, in order. -/
def taskContainers (tasks : List Task) : List (Task × Container) :=
  tasks.flatMap (fun t => t.Containers.map (fun cn => (t, cn)))

/-- Every (task, container, network binding) triple of the described tasks, in
order. -/
def taskBindings (tasks : List Task) : List (Task × Container × NetworkBinding) :=
  tasks.flatMap (fun t =>
    t.Containers.flatMap (fun cn => cn.NetworkBindings.map (fun b => (t, cn, b))))

/-- The pairs that count in `"awsvpc"` mode: the container is named `containerName`
and has at least one network interface. -/
def awsvpcMatch (c : config) (tc : Task × Container) : Bool :=
  decide (aws.StringValue tc.2.Name = c.containerName) && !tc.2.NetworkInterfaces.isEmpty

/-- The target of a pair in `"awsvpc"` mode: the private IPv4 address of the first
network interface, and the configured port. -/
def awsvpcTarget (c : config) (tc : Task × Container) : target :=
  { id := extractIDFromArn tc.1.TaskArn,
    host := aws.StringValue (tc.2.NetworkInterfaces.head?.bind (fun ni => ni.PrivateIpv4Address)),
    port := c.port }

/-- The triples that count in `"bridge"` mode: the container is named
`containerName`, the binding's container port is the configured port, and the
task's container instance is a key of the host-address map. -/
def bridgeMatch (c : config) (arnToAddr : GoMap String)
    (tcb : Task × Container × NetworkBinding) : Bool :=
  decide (aws.StringValue tcb.2.1.Name = c.containerName) &&
    decide (aws.Int64Value tcb.2.2.ContainerPort = c.port) &&
    (arnToAddr.get? (aws.StringValue tcb.1.ContainerInstanceArn)).isSome

/-- The target of a triple in `"bridge"` mode: the mapped address and the binding's
host port. -/
def bridgeTarget (arnToAddr : GoMap String) (tcb : Task × Container × NetworkBinding) :
    target :=
  { id := extractIDFromArn tcb.1.TaskArn,
    host := arnToAddr.get (aws.StringValue tcb.1.ContainerInstanceArn),
    port := aws.Int64Value tcb.2.2.HostPort }

/-- The tasks that count in `"host"` mode: the container instance is a key of the
host-address map. -/
def hostMatch (arnToAddr : GoMap String) (t : Task) : Bool :=
  (arnToAddr.get? (aws.StringValue t.ContainerInstanceArn)).isSome

/-- The target of a task in `"host"` mode: the mapped address and the configured
port. -/
def hostTarget (c : config) (arnToAddr : GoMap String) (t : Task) : target :=
  { id := extractIDFromArn t.TaskArn,
    host := arnToAddr.get (aws.StringValue t.ContainerInstanceArn),
    port := c.port }

/-- The number of matches a task holds: in `"awsvpc"` mode its containers named
`containerName` with a network interface, in `"bridge"` mode the network bindings
with the configured container port among its containers named `containerName`, and
one (the task itself) otherwise. -/
def taskMatches (c : config) (t : Task) : Nat :=
  if c.networkMode = "awsvpc" then
    ((taskContainers [t]).filter (awsvpcMatch c)).length
  else if c.networkMode = "bridge" then
    ((taskBindings [t]).filter (fun tcb =>
      decide (aws.StringValue tcb.2.1.Name = c.containerName) &&
        decide (aws.Int64Value tcb.2.2.ContainerPort = c.port))).length
  else 1

/-! ## What the collectors are expected to do -/

/-- The requests the meta collector sends when it consults the targets `ts` one
after the other: one GET with the meta header per target whose URL makes a request. -/
def metaRequests {μ : Type} (w : World μ) (ts : List target) : List Request :=
  (ts.filter (fun t => (w.NewRequest (targetURL t)).isNone)).map
    (fun t => { Method := "GET", URL := targetURL t, MetaHeader := "1" })

/-- The result of consulting `t` once the targets `before` have been consulted. -/
def metaOutcome {μ : Type} (w : World μ) (before : List target) (t : target) :
    Except Error (Meta μ) :=
  (getMetricsMeta w (metaRequests w before) t).1

/-- The entry of the emitted document for the entry `e` of a target's document: the
key behind `service.#.` and the label behind `[service] `, the rest as it was. -/
def rewriteEntry {μ : Type} (service : String) (e : Sigma (fun _ : String => Graphs μ)) :
    Sigma (fun _ : String => Graphs μ) :=
  ⟨service ++ ".#." ++ e.1,
    { Label := "[" ++ service ++ "] " ++ e.2.Label, Unit := e.2.Unit, Metrics := e.2.Metrics }⟩

/-- A target's fetch for `printMetrics` succeeded: the GET returned without error,
with status 200 and the content type `text/plain`. -/
def metricsOk {μ : Type} (w : World μ) (it : Nat × target) : Bool :=
  match w.Get it.1 (targetURL it.2) with
  | .ok res => decide (res.StatusCode = 200) && decide (res.ContentType = "text/plain")
  | .error _ => false

/-- The lines of a text, each marked `true` when a `\n` ends it: the parts between
the `\n`, and what follows the last `\n` when that is not empty. -/
def textLines (data : List Char) : List (List Char × Bool) :=
  let parts := strings.splitChars '\n' data
  parts.dropLast.map (fun l => (l, true)) ++
    match parts.getLast? with
    | some last => if last = [] then [] else [(last, false)]
    | none => []

/-- A line fits the scanner: it is shorter than 65536 bytes, or it is exactly that
long, no `\n` ends it and the stream ends with its last bytes. -/
def lineFits (endsWithData : Bool) (l : List Char × Bool) : Bool :=
  decide (byteLen l.1 < 65536) ||
    (!l.2 && decide (byteLen l.1 = 65536) && endsWithData)

/-- The lines of a body that get written: its lines before the first one that does
not fit, each without one trailing `\r`. -/
def writtenLines (endsWithData : Bool) (data : List Char) : List String :=
  ((textLines data).takeWhile (lineFits endsWithData)).map
    (fun l => String.mk (if l.1.getLast? = some '\r' then l.1.dropLast else l.1))

/-- The lines written for the body a target answered with (none when the GET
failed). -/
def bodyLines {μ : Type} (w : World μ) (it : Nat × target) : List String :=
  match w.Get it.1 (targetURL it.2) with
  | .ok res => writtenLines (w.EndsWithData it.1) res.Body.data.data
  | .error _ => []

/-- The outputs the goroutines can produce together: `out` is an interleaving of the
queues, each step printing the next line of some goroutine, until all are done. -/
inductive Interleaving : List (List String) → List String → Prop where
  | done (queues : List (List String)) (h : ∀ q ∈ queues, q = []) : Interleaving queues []
  | step (queues : List (List String)) (i : Nat) (line : String) (rest out : List String)
      (h : queues[i]? = some (line :: rest)) (hrest : Interleaving (queues.set i rest) out) :
      Interleaving queues (line :: out)

/-! ## Concrete inventories and worlds -/

/-- A task ARN of the cluster `default`. -/
def demoArn (id : String) : Option String :=
  some ("arn:aws:ecs:ap-northeast-1:123456789012:task/default/" ++ id)

/-- Three described tasks: `t1` runs `app` on instance `ci/1`, `t2` runs only a
container named `other` on `ci/2`, `t3` runs `app` on `ci/3`. -/
def demoTasks : List Task :=
  [ { TaskArn := demoArn "t1", ContainerInstanceArn := some "ci/1",
      Containers :=
        [ { Name := some "app", NetworkInterfaces := [⟨some "172.16.0.1"⟩],
            NetworkBindings := [⟨some 8080, some 32768⟩] },
          { Name := some "sidecar", NetworkInterfaces := [],
            NetworkBindings := [⟨some 9000, some 32770⟩] } ] },
    { TaskArn := demoArn "t2", ContainerInstanceArn := some "ci/2",
      Containers :=
        [ { Name := some "other", NetworkInterfaces := [⟨some "172.16.0.2"⟩],
            NetworkBindings := [⟨some 8080, some 32769⟩] } ] },
    { TaskArn := demoArn "t3", ContainerInstanceArn := some "ci/3",
      Containers :=
        [ { Name := some "app", NetworkInterfaces := [],
            NetworkBindings := [⟨some 8080, some 32772⟩, ⟨some 8081, some 32773⟩] } ] } ]

/-- The container instances of the cluster and their EC2 instances. -/
def demoContainerInstances : List ContainerInstance :=
  [⟨some "i-1", some "ci/1"⟩, ⟨some "i-2", some "ci/2"⟩, ⟨some "i-3", some "ci/3"⟩]

/-- The EC2 instances; `i-3` has no network interface. -/
def demoInstances : List Instance :=
  [ { InstanceId := some "i-1", NetworkInterfaces := [⟨some "10.0.0.1"⟩] },
    { InstanceId := some "i-2", NetworkInterfaces := [⟨some "10.0.0.2"⟩] },
    { InstanceId := some "i-3", NetworkInterfaces := [] } ]

/-- An inventory that lists the three tasks over three pages and describes the
container instances and EC2 instances it is asked for, on one page; so it resolves
`ci/1` and `ci/2`, and not `ci/3`, whose host has no network interface. -/
def demoInv : Inventory where
  ListTasks := fun _ _ _ tok =>
    if tok = none then .ok { TaskArns := [demoArn "t1"], NextToken := some "p2" }
    else if tok = some "p2" then .ok { TaskArns := [demoArn "t2"], NextToken := some "p3" }
    else if tok = some "p3" then .ok { TaskArns := [demoArn "t3"], NextToken := some "" }
    else .error "InvalidParameterException"
  DescribeTasks := fun _ _ _ => .ok { Tasks := demoTasks }
  DescribeContainerInstances := fun _ _ arns =>
    .ok ⟨demoContainerInstances.filter
      (fun d => decide (aws.StringValue d.ContainerInstanceArn ∈ arns))⟩
  DescribeInstances := fun _ ids _ =>
    .ok { Reservations :=
            [ { Instances :=
                  demoInstances.filter (fun i => decide (aws.StringValue i.InstanceId ∈ ids)) } ],
          NextToken := none }
  rangeDistinct := RangeOrder.stored String
  rangeKeys := RangeOrder.reversed String

/-- The configuration of the examples, in the given network mode. -/
def demoConfig (networkMode : String) : config :=
  { cluster := "default", service := "web", containerName := "app", port := 8080,
    networkMode := networkMode }

/-- The host-address map `demoInv` leads to. -/
def demoAddrMap : GoMap String :=
  ((∅ : GoMap String).set "ci/1" "10.0.0.1").set "ci/2" "10.0.0.2"

/-- The calls of a whole resolution against `demoInv` in `"bridge"` or `"host"` mode. -/
def demoCalls : List Call :=
  [ .ListTasks "default" "web" none, .ListTasks "default" "web" (some "p2"),
    .ListTasks "default" "web" (some "p3"),
    .DescribeTasks "default" [demoArn "t1", demoArn "t2", demoArn "t3"],
    .DescribeContainerInstances "default" ["ci/3", "ci/2", "ci/1"],
    .DescribeInstances ["i-1", "i-2", "i-3"] none ]

/-- An inventory whose second page of `ListTasks` fails. -/
def failingInv : Inventory :=
  { demoInv with
    ListTasks := fun _ _ _ tok =>
      if tok = none then .ok { TaskArns := [demoArn "t1"], NextToken := some "p2" }
      else .error "ThrottlingException" }

/-- An inventory with one task whose container `app` binds the container port 8080
twice (once per protocol), to two host ports. -/
def twoBindingsInv : Inventory :=
  { demoInv with
    ListTasks := fun _ _ _ _ => .ok { TaskArns := [demoArn "t1"], NextToken := none }
    DescribeTasks := fun _ _ _ =>
      .ok { Tasks :=
        [ { TaskArn := demoArn "t1", ContainerInstanceArn := some "ci/1",
            Containers :=
              [ { Name := some "app", NetworkInterfaces := [],
                  NetworkBindings := [⟨some 8080, some 32768⟩, ⟨some 8080, some 32769⟩] } ] } ] } }

/-- An inventory with two tasks on the two resolved instances whose ARNs differ (one
names the cluster, one does not) and end in the same segment. -/
def sameSegmentInv : Inventory :=
  { demoInv with
    ListTasks := fun _ _ _ _ =>
      .ok { TaskArns := [demoArn "t1", some "arn:aws:ecs:ap-northeast-1:123456789012:task/t1"],
            NextToken := none }
    DescribeTasks := fun _ _ _ =>
      .ok { Tasks :=
        [ { TaskArn := demoArn "t1", ContainerInstanceArn := some "ci/1", Containers := [] },
          { TaskArn := some "arn:aws:ecs:ap-northeast-1:123456789012:task/t1",
            ContainerInstanceArn := some "ci/2", Containers := [] } ] } }

/-- Two described tasks that both run `app` with one binding of container port 8080;
`t2` has a second binding of another port and a second container binding 8080. -/
def twoAppsTasks : List Task :=
  [ { TaskArn := demoArn "t1", ContainerInstanceArn := some "ci/1",
      Containers :=
        [ { Name := some "app", NetworkInterfaces := [],
            NetworkBindings := [⟨some 8080, some 32768⟩] } ] },
    { TaskArn := demoArn "t2", ContainerInstanceArn := some "ci/2",
      Containers :=
        [ { Name := some "app", NetworkInterfaces := [],
            NetworkBindings := [⟨some 8080, some 32769⟩, ⟨some 8081, some 32771⟩] },
          { Name := some "sidecar", NetworkInterfaces := [],
            NetworkBindings := [⟨some 8080, some 32770⟩] } ] } ]

/-- An inventory that lists and describes the two tasks of `twoAppsTasks`. -/
def twoAppsInv : Inventory :=
  { demoInv with
    ListTasks := fun _ _ _ _ =>
      .ok { TaskArns := [demoArn "t1", demoArn "t2"], NextToken := none }
    DescribeTasks := fun _ _ _ => .ok { Tasks := twoAppsTasks } }

/-- The target at the given address, on port 8080. -/
def demoTarget (id host : String) : target :=
  { id := id, host := host, port := 8080 }

/-- The meta request the collector sends to the given address. -/
def demoRequest (host : String) : Request :=
  { Method := "GET", URL := "http://" ++ host ++ ":8080/", MetaHeader := "1" }

/-- A graph document with the single graph `key`. -/
def demoMeta (key label : String) : Meta Unit :=
  { Graphs := (∅ : GoMap (Graphs Unit)).set key { Label := label, Unit := "integer", Metrics := [] } }

/-- A rendering of a graph document, one `key=label,unit` per graph. -/
def demoRender (m : Meta Unit) : String :=
  String.intercalate ";" (m.Graphs.entries.map (fun e => e.1 ++ "=" ++ e.2.Label ++ "," ++ e.2.Unit))

/-- A world of four endpoints: `10.0.0.1` refuses the connection, `10.0.0.2` and
`10.0.0.3` serve the graphs `g1` and `g2`, and `10.0.0.4` serves a document without
graphs. -/
def demoWorld : World Unit where
  Get := fun _ url =>
    if url = "http://10.0.0.2:8080/" then
      .ok { StatusCode := 200, ContentType := "text/plain", MetaHeader := "",
            Body := ⟨"cpu\t1\t0\r\nmem\t2\t0\nload\t3\t0", none⟩ }
    else if url = "http://10.0.0.3:8080/" then
      .ok { StatusCode := 200, ContentType := "text/html", MetaHeader := "",
            Body := ⟨"<html></html>", none⟩ }
    else .error "connection refused"
  NewRequest := fun _ => none
  Do := fun _ req =>
    if req.URL = "http://10.0.0.2:8080/" then
      .ok { StatusCode := 200, ContentType := "text/json", MetaHeader := "1", Body := ⟨"B", none⟩ }
    else if req.URL = "http://10.0.0.3:8080/" then
      .ok { StatusCode := 200, ContentType := "text/json", MetaHeader := "1", Body := ⟨"C", none⟩ }
    else if req.URL = "http://10.0.0.4:8080/" then
      .ok { StatusCode := 200, ContentType := "text/json", MetaHeader := "1", Body := ⟨"E", none⟩ }
    else .error "connection refused"
  EndsWithData := fun _ => true
  Unmarshal := fun b =>
    if b = "B" then .ok (demoMeta "g1" "Graph 1")
    else if b = "C" then .ok (demoMeta "g2" "Graph 2")
    else if b = "E" then .ok { Graphs := ∅ }
    else .error "unexpected end of JSON input"
  Marshal := fun m => .ok (demoRender m)
  rangeGraphs := RangeOrder.reversed (Graphs Unit)

/-- A body of three lines whose first line has 65536 bytes, each line ended by `\n`. -/
def longLineBody : Body :=
  ⟨String.mk (List.replicate 65536 'a' ++ ['\n', 'o', 'k', '\n', 'e', 'n', 'd', '\n']), none⟩

/-- The world `demoWorld` with the endpoint `10.0.0.2` answering the GET with
`longLineBody`, status 200 and content type `text/plain`. -/
def longLineWorld : World Unit :=
  { demoWorld with
    Get := fun _ url =>
      if url = "http://10.0.0.2:8080/" then
        .ok { StatusCode := 200, ContentType := "text/plain", MetaHeader := "",
              Body := longLineBody }
      else .error "connection refused" }

/-! ## Splitting an ARN -/

/-- The parts of a split are some parts followed by a last one that holds no
separator; the input is that last part when it is the only one, and otherwise ends
in a separator followed by it. -/
theorem splitChars_last (sep : Char) (l : List Char) :
    ∃ front r, strings.splitChars sep l = front ++ [r] ∧ sep ∉ r ∧
      ((front = [] ∧ l = r) ∨ (front ≠ [] ∧ ∃ p, l = p ++ sep :: r)) := by
  induction l with
  | nil => exact ⟨[], [], rfl, by simp, Or.inl ⟨rfl, rfl⟩⟩
  | cons c cs ih =>
    obtain ⟨front, r, hsplit, hr, hform⟩ := ih
    by_cases hc : c = sep
    · refine ⟨[] :: front, r, ?_, hr, Or.inr ⟨by simp, ?_⟩⟩
      · simp [strings.splitChars, hc, hsplit]
      · rcases hform with ⟨_, hl⟩ | ⟨_, p, hl⟩
        · exact ⟨[], by simp [hc, hl]⟩
        · exact ⟨sep :: p, by simp [hc, hl]⟩
    · cases front with
      | nil =>
        refine ⟨[], c :: r, ?_, ?_, Or.inl ⟨rfl, ?_⟩⟩
        · simp [strings.splitChars, hc, hsplit]
        · simp only [List.mem_cons, not_or]
          exact ⟨fun h => hc h.symm, hr⟩
        · rcases hform with ⟨_, hl⟩ | ⟨hne, _⟩
          · rw [hl]
          · exact absurd rfl hne
      | cons q qs =>
        refine ⟨(c :: q) :: qs, r, ?_, hr, Or.inr ⟨by simp, ?_⟩⟩
        · simp [strings.splitChars, hc, hsplit]
        · rcases hform with ⟨hnil, _⟩ | ⟨_, p, hl⟩
          · exact absurd hnil (by simp)
          · exact ⟨c :: p, by simp [hl]⟩

/-- The last part of `strings.Split` exists and is the trailing segment. -/
theorem extractIDFromArnChecked_spec (arn : Option String) :
    ∃ r : String, extractIDFromArnChecked arn = some r ∧ '/' ∉ r.data ∧
      (('/' ∉ (aws.StringValue arn).data ∧ aws.StringValue arn = r) ∨
        ∃ p : String, aws.StringValue arn = p ++ "/" ++ r) := by
  obtain ⟨front, r, hsplit, hr, hform⟩ := splitChars_last '/' (aws.StringValue arn).data
  refine ⟨String.mk r, ?_, hr, ?_⟩
  · simp [extractIDFromArnChecked, strings.Split, hsplit]
  · rcases hform with ⟨_, hl⟩ | ⟨_, p, hl⟩
    · left
      refine ⟨by rw [hl]; exact hr, ?_⟩
      exact String.ext hl
    · right
      refine ⟨String.mk p, String.ext ?_⟩
      simp [hl, String.data_append]

/-! ## Errors of the inventory -/

theorem callsOk_append (inv : Inventory) (h a b : List Call) :
    callsOk inv h (a ++ b) ↔ callsOk inv h a ∧ callsOk inv (h ++ a) b := by
  induction a generalizing h with
  | nil => simp [callsOk]
  | cons x xs ih => simp [callsOk, ih, and_assoc]

theorem RunInv_prepend {α : Type} (inv : Inventory) (log a : List Call)
    (r : Outcome (Option α × Option Error) × List Call)
    (ha : callsOk inv log a) (hr : RunInv inv (log ++ a) r) : RunInv inv log r := by
  obtain ⟨made, hlog, h⟩ := hr
  refine ⟨a ++ made, by simp [hlog], ?_⟩
  rcases h with h | ⟨pre, call, e, hm, hpre, herr, hres⟩
  · exact Or.inl ((callsOk_append inv log a made).2 ⟨ha, h⟩)
  · refine Or.inr ⟨a ++ pre, call, e, by simp [hm], ?_, ?_, hres⟩
    · exact (callsOk_append inv log a pre).2 ⟨ha, hpre⟩
    · simpa using herr

theorem RunInv_ok_one {α : Type} (inv : Inventory) (log : List Call) (call : Call)
    (o : Outcome (Option α × Option Error)) (h : inv.errorOf log call = none) :
    RunInv inv log (o, log ++ [call]) :=
  ⟨[call], rfl, Or.inl ⟨h, trivial⟩⟩

theorem RunInv_error_one {α : Type} (inv : Inventory) (log : List Call) (call : Call)
    (e : Error) (h : inv.errorOf log call = some e) :
    RunInv (α := α) inv log (.returned (none, some e), log ++ [call]) :=
  ⟨[call], rfl, Or.inr ⟨[], call, e, rfl, trivial, by simpa using h, rfl⟩⟩

theorem listTasksLoop_inv (inv : Inventory) (c : config) (fuel : Nat)
    (ret : List (Option String)) (tok : Option String) (log : List Call) :
    RunInv inv log (listTasksLoop inv c fuel ret tok log) := by
  induction fuel generalizing ret tok log with
  | zero => exact ⟨[], by simp [listTasksLoop], Or.inl trivial⟩
  | succ n ih =>
    unfold listTasksLoop
    cases hres : inv.ListTasks log c.cluster c.service tok with
    | error e =>
      exact RunInv_error_one inv log _ e (by simp [Inventory.errorOf, hres])
    | ok list =>
      have hok : inv.errorOf log (Call.ListTasks c.cluster c.service tok) = none := by
        simp [Inventory.errorOf, hres]
      simp only
      split
      · exact RunInv_ok_one inv log _ _ hok
      · exact RunInv_prepend inv log [_] _ ⟨hok, trivial⟩ (ih _ _ _)

theorem describeInstancesLoop_inv (inv : Inventory) (idToArn : GoMap String)
    (ids : List String) (fuel : Nat) (tok : Option String) (arnToHost : GoMap String)
    (log : List Call) :
    RunInv inv log (describeInstancesLoop inv idToArn ids fuel tok arnToHost log) := by
  induction fuel generalizing tok arnToHost log with
  | zero => exact ⟨[], by simp [describeInstancesLoop], Or.inl trivial⟩
  | succ n ih =>
    unfold describeInstancesLoop
    cases hres : inv.DescribeInstances log ids tok with
    | error e =>
      exact RunInv_error_one inv log _ e (by simp [Inventory.errorOf, hres])
    | ok desc =>
      have hok : inv.errorOf log (Call.DescribeInstances ids tok) = none := by
        simp [Inventory.errorOf, hres]
      simp only
      split
      · exact RunInv_ok_one inv log _ _ hok
      · exact RunInv_prepend inv log [_] _ ⟨hok, trivial⟩ (ih _ _ _)

theorem createArnToAddrMap_inv (inv : Inventory) (c : config) (fuel : Nat)
    (log : List Call) (tasks : List Task) :
    RunInv inv log (createArnToAddrMap inv c fuel log tasks) := by
  unfold createArnToAddrMap
  simp only
  split
  · next e hres =>
    exact RunInv_error_one inv log _ e (by simp [Inventory.errorOf, hres])
  · next desc hres =>
    refine RunInv_prepend inv log [_] _ ⟨?_, trivial⟩ (describeInstancesLoop_inv _ _ _ _ _ _ _)
    simp [Inventory.errorOf, hres]

theorem RunInv_weaken {α β : Type} (inv : Inventory) (log l : List Call)
    (o : Outcome (Option α × Option Error)) (o2 : Outcome (Option β × Option Error))
    (h : RunInv inv log (o, l))
    (hoo : ∀ e, o = .returned (none, some e) → o2 = .returned (none, some e)) :
    RunInv inv log (o2, l) := by
  obtain ⟨made, hlog, h⟩ := h
  refine ⟨made, hlog, ?_⟩
  rcases h with h | ⟨pre, call, e, hm, hpre, herr, hres⟩
  · exact Or.inl h
  · exact Or.inr ⟨pre, call, e, hm, hpre, herr, hoo e hres⟩

theorem RunInv_calls_ok {α : Type} (inv : Inventory) (log l : List Call)
    (o : Outcome (Option α × Option Error)) (h : RunInv inv log (o, l))
    (hne : ∀ e, o ≠ .returned (none, some e)) :
    ∃ made, l = log ++ made ∧ callsOk inv log made := by
  obtain ⟨made, hlog, h⟩ := h
  refine ⟨made, hlog, ?_⟩
  rcases h with h | ⟨pre, call, e, hm, hpre, herr, hres⟩
  · exact h
  · exact absurd hres (hne e)

theorem mapStage_inv (inv : Inventory) (c : config) (fuel : Nat) (log2 : List Call)
    (tasks : List Task) (f : GoMap String → List target) :
    RunInv inv log2
      (match createArnToAddrMap inv c fuel log2 tasks with
        | (.outOfFuel, log3) => (.outOfFuel, log3)
        | (.returned (_, some err), log3) => (.returned (none, some err), log3)
        | (.returned (arnToAddr, none), log3) =>
          (.returned (some (f (arnToAddr.getD ∅)), none), log3)) := by
  have h := createArnToAddrMap_inv inv c fuel log2 tasks
  split
  · next log3 heq =>
    rw [heq] at h
    exact RunInv_weaken inv log2 log3 _ _ h (fun e he => by simp at he)
  · next x err log3 heq =>
    rw [heq] at h
    refine RunInv_weaken inv log2 log3 _ _ h (fun e he => ?_)
    simp only [Outcome.returned.injEq, Prod.mk.injEq, Option.some.injEq] at he
    rw [he.2]
  · next arnToAddr log3 heq =>
    rw [heq] at h
    exact RunInv_weaken inv log2 log3 _ _ h (fun e he => by simp at he)

theorem getTargetList_inv (inv : Inventory) (c : config) (fuel : Nat) (log : List Call) :
    RunInv inv log (getTargetList inv c fuel log) := by
  have h := listTasksLoop_inv inv c fuel [] none log
  unfold getTargetList listTasks
  split
  · next log1 heq =>
    rw [heq] at h
    exact RunInv_weaken inv log log1 _ _ h (fun e he => by simp at he)
  · next x err log1 heq =>
    rw [heq] at h
    refine RunInv_weaken inv log log1 _ _ h (fun e he => ?_)
    simp only [Outcome.returned.injEq, Prod.mk.injEq, Option.some.injEq] at he
    rw [he.2]
  · next tasks log1 heq =>
    rw [heq] at h
    obtain ⟨made, hlog, hok⟩ := RunInv_calls_ok inv log log1 _ h (fun e he => by simp at he)
    subst hlog
    apply RunInv_prepend inv log made _ hok
    simp only
    split
    · exact ⟨[], by simp, Or.inl trivial⟩
    · split
      · next e hres =>
        exact RunInv_error_one inv _ _ e (by simp [Inventory.errorOf, hres])
      · next desc hres =>
        have hd : inv.errorOf (log ++ made) (Call.DescribeTasks c.cluster (tasks.getD [])) = none := by
          simp [Inventory.errorOf, hres]
        split
        · exact RunInv_ok_one inv _ _ _ hd
        · split
          · exact RunInv_prepend inv _ [_] _ ⟨hd, trivial⟩
              (mapStage_inv inv c fuel _ desc.Tasks (fun m => bridgeLoop c m [] desc.Tasks))
          · split
            · exact RunInv_prepend inv _ [_] _ ⟨hd, trivial⟩
                (mapStage_inv inv c fuel _ desc.Tasks (fun m => hostLoop c m [] desc.Tasks))
            · exact RunInv_ok_one inv _ _ _ hd

theorem RunInv_abort {α : Type} (inv : Inventory) (log0 pre post : List Call) (call : Call)
    (e : Error) (r : Outcome (Option α × Option Error) × List Call)
    (h : RunInv inv log0 r) (hlog : r.2 = log0 ++ pre ++ call :: post)
    (herr : inv.errorOf (log0 ++ pre) call = some e) :
    post = [] ∧ r.1 = .returned (none, some e) := by
  obtain ⟨made, hmade, h⟩ := h
  have hm : made = pre ++ call :: post := by
    rw [hmade, List.append_assoc] at hlog
    exact List.append_cancel_left hlog
  subst hm
  rcases h with h | ⟨pre2, call2, e2, hm, hpre, herr2, hres⟩
  · have := ((callsOk_append inv log0 pre (call :: post)).1 h).2.1
    rw [herr] at this
    exact absurd this (by simp)
  · rcases List.eq_nil_or_concat post with hp | ⟨front, x, hp⟩
    · subst hp
      have := List.append_inj' hm (by simp)
      obtain ⟨h1, h2⟩ := this
      simp only [List.cons.injEq, and_true] at h2
      subst h1 h2
      rw [herr] at herr2
      simp only [Option.some.injEq] at herr2
      exact ⟨rfl, by rw [hres, herr2]⟩
    · subst hp
      have hm2 : (pre ++ call :: front) ++ [x] = pre2 ++ [call2] := by simpa using hm
      have := (List.append_inj' hm2 (by simp)).1
      subst this
      have := ((callsOk_append inv log0 pre (call :: front)).1 hpre).2.1
      rw [herr] at this
      exact absurd this (by simp)

/-! ## The loops of the three network modes -/

theorem foldl_eq_append_flatMap {α β : Type} (step : List β → α → List β)
    (g : α → List β) (hstep : ∀ ret x, step ret x = ret ++ g x) (l : List α)
    (ret : List β) : l.foldl step ret = ret ++ l.flatMap g := by
  induction l generalizing ret with
  | nil => simp
  | cons x xs ih => simp [List.foldl_cons, hstep, ih, List.flatMap_cons]

theorem filter_map_flatMap {α β γ : Type} (l : List α) (g : α → List β) (p : β → Bool)
    (f : β → γ) :
    ((l.flatMap g).filter p).map f = l.flatMap (fun x => ((g x).filter p).map f) := by
  induction l with
  | nil => simp
  | cons x xs ih => simp [List.flatMap_cons, ih]

theorem filter_map_map {α β γ : Type} (l : List α) (h : α → β) (p : β → Bool)
    (f : β → γ) :
    ((l.map h).filter p).map f = l.flatMap (fun x => if p (h x) then [f (h x)] else []) := by
  induction l with
  | nil => simp
  | cons x xs ih =>
    by_cases hp : p (h x) <;> simp [List.flatMap_cons, ih, hp]

theorem awsvpcLoop_eq (c : config) (ret : List target) (tasks : List Task) :
    awsvpcLoop c ret tasks =
      ret ++ ((taskContainers tasks).filter (awsvpcMatch c)).map (awsvpcTarget c) := by
  unfold awsvpcLoop taskContainers
  rw [filter_map_flatMap]
  apply foldl_eq_append_flatMap
  intro ret task
  rw [filter_map_map]
  apply foldl_eq_append_flatMap
  intro ret container
  by_cases hname : aws.StringValue container.Name = c.containerName
  · cases hni : container.NetworkInterfaces with
    | nil => simp [hname, awsvpcMatch, hni]
    | cons ni rest => simp [hname, awsvpcMatch, awsvpcTarget, hni]
  · simp [hname, awsvpcMatch]

theorem bridgeLoop_eq (c : config) (arnToAddr : GoMap String) (ret : List target)
    (tasks : List Task) :
    bridgeLoop c arnToAddr ret tasks =
      ret ++ ((taskBindings tasks).filter (bridgeMatch c arnToAddr)).map
        (bridgeTarget arnToAddr) := by
  unfold bridgeLoop taskBindings
  rw [filter_map_flatMap]
  apply foldl_eq_append_flatMap
  intro ret task
  rw [filter_map_flatMap]
  apply foldl_eq_append_flatMap
  intro ret container
  rw [filter_map_map]
  by_cases hname : aws.StringValue container.Name = c.containerName
  · simp only [hname, if_true]
    apply foldl_eq_append_flatMap
    intro ret b
    by_cases hport : aws.Int64Value b.ContainerPort = c.port
    · cases hget : arnToAddr.get? (aws.StringValue task.ContainerInstanceArn) with
      | none => simp [hname, hport, bridgeMatch, hget]
      | some addr => simp [hname, hport, bridgeMatch, bridgeTarget, hget, GoMap.get]
    · simp [hport, bridgeMatch]
  · simp [hname, bridgeMatch]

theorem hostLoop_eq (c : config) (arnToAddr : GoMap String) (ret : List target)
    (tasks : List Task) :
    hostLoop c arnToAddr ret tasks =
      ret ++ (tasks.filter (hostMatch arnToAddr)).map (hostTarget c arnToAddr) := by
  unfold hostLoop
  have h := filter_map_map tasks (fun t => t) (hostMatch arnToAddr) (hostTarget c arnToAddr)
  simp only [List.map_id_fun, id_eq, List.map_id_fun'] at h
  rw [h]
  apply foldl_eq_append_flatMap
  intro ret task
  cases hget : arnToAddr.get? (aws.StringValue task.ContainerInstanceArn) with
  | none => simp [hostMatch, hget]
  | some addr => simp [hostMatch, hostTarget, hget, GoMap.get]

/-! ## Pagination of `listTasks` -/

theorem listTasksLoop_pages (inv : Inventory) (c : config) (pages : List ListTasksOutput)
    (last : ListTasksOutput) (fuel : Nat) (ret : List (Option String)) (tok : Option String)
    (log : List Call) (hfuel : pages.length < fuel)
    (hmore : ∀ p ∈ pages, ¬ (p.NextToken = none ∨ aws.StringValue p.NextToken = ""))
    (hlast : last.NextToken = none ∨ aws.StringValue last.NextToken = "")
    (hresp : ∀ i p, (pages ++ [last])[i]? = some p →
      inv.ListTasks
          (log ++ ((tok :: pages.map (fun p => p.NextToken)).take i).map
            (Call.ListTasks c.cluster c.service))
          c.cluster c.service ((tok :: pages.map (fun p => p.NextToken)).getD i none) = .ok p) :
    listTasksLoop inv c fuel ret tok log =
      (.returned (some (ret ++ (pages ++ [last]).flatMap (fun p => p.TaskArns)), none),
        log ++ (tok :: pages.map (fun p => p.NextToken)).map
          (Call.ListTasks c.cluster c.service)) := by
  induction pages generalizing fuel ret tok log with
  | nil =>
    obtain ⟨n, rfl⟩ : ∃ n, fuel = n + 1 := ⟨fuel - 1, by simp at hfuel; omega⟩
    have h0 := hresp 0 last (by simp)
    simp only [List.take_zero, List.map_nil, List.append_nil, List.getD_cons_zero] at h0
    simp [listTasksLoop, h0, hlast]
  | cons p ps ih =>
    obtain ⟨n, rfl⟩ : ∃ n, fuel = n + 1 := ⟨fuel - 1, by simp at hfuel; omega⟩
    have h0 := hresp 0 p (by simp)
    simp only [List.take_zero, List.map_nil, List.append_nil, List.getD_cons_zero] at h0
    have hp := hmore p (by simp)
    have hrec := ih n (ret ++ p.TaskArns) p.NextToken
      (log ++ [Call.ListTasks c.cluster c.service tok])
      (by simp at hfuel; omega) (fun q hq => hmore q (by simp [hq])) (fun i q hq => by
        have := hresp (i + 1) q (by simpa using hq)
        simpa using this)
    unfold listTasksLoop
    simp only [h0, hp, if_false]
    rw [hrec]
    simp [List.flatMap_cons, List.append_assoc]

/-! ## The meta collector -/

theorem string_append_left_cancel (p a b : String) (h : p ++ a = p ++ b) : a = b := by
  have hd := congrArg String.data h
  simp only [String.data_append] at hd
  exact String.ext (List.append_cancel_left hd)

theorem rewriteFold_entries {μ : Type} (service : String) (l : List (String × Graphs μ))
    (dst : GoMap (Graphs μ)) (hnodup : (l.map (fun kg => kg.1)).Nodup)
    (hfresh : ∀ kg ∈ l, (service ++ ".#." ++ kg.1) ∉ dst) :
    (l.foldl (fun dst kg => dst.set (service ++ ".#." ++ kg.1) (relabel service kg.2))
        dst).entries =
      (l.map (fun kg => rewriteEntry service ⟨kg.1, kg.2⟩)).reverse ++ dst.entries := by
  induction l generalizing dst with
  | nil => simp
  | cons kg rest ih =>
    have hk : (service ++ ".#." ++ kg.1) ∉ dst := hfresh kg (by simp)
    have hnd : kg.1 ∉ rest.map (fun kg => kg.1) ∧ (rest.map (fun kg => kg.1)).Nodup := by
      rw [List.map_cons] at hnodup
      exact List.nodup_cons.1 hnodup
    rw [List.foldl_cons, ih _ hnd.2]
    · rw [GoMap.set, AList.insert_entries_of_neg hk]
      simp [rewriteEntry, relabel]
    · intro kg2 hkg2
      simp only [GoMap.set, AList.mem_insert, not_or]
      refine ⟨fun heq => ?_, hfresh kg2 (by simp [hkg2])⟩
      have hkeys : kg2.1 = kg.1 := string_append_left_cancel _ _ _ heq
      exact hnd.1 (by rw [← hkeys]; exact List.mem_map_of_mem (fun kg => kg.1) hkg2)

/-- The emitted graphs are the source's graphs, each under its rewritten key and
with its rewritten label, whatever the order of the range. -/
theorem rewriteGraphs_perm {μ : Type} (ρ : RangeOrder (Graphs μ)) (service : String)
    (src : GoMap (Graphs μ)) :
    (rewriteGraphs ρ service src).entries.Perm (src.entries.map (rewriteEntry service)) := by
  have hperm := ρ.perm src.entries
  have hnd : ((src.range ρ).map (fun kg => kg.1)).Nodup := by
    have : (src.range ρ).map (fun kg => kg.1) = (ρ.order src.entries).map Sigma.fst := by
      simp [GoMap.range, Function.comp_def]
    rw [this]
    exact (hperm.map Sigma.fst).nodup_iff.2 src.nodupKeys
  unfold rewriteGraphs
  rw [rewriteFold_entries service _ ∅ hnd (fun _ _ => AList.not_mem_empty _)]
  have hmap : (src.range ρ).map (fun kg => rewriteEntry service ⟨kg.1, kg.2⟩) =
      (ρ.order src.entries).map (rewriteEntry service) := by
    simp [GoMap.range, Function.comp_def]
  rw [hmap]
  simp only [AList.empty_entries, List.append_nil]
  exact (List.reverse_perm _).trans (hperm.map _)

theorem metaRequests_append {μ : Type} (w : World μ) (a b : List target) :
    metaRequests w (a ++ b) = metaRequests w a ++ metaRequests w b := by
  simp [metaRequests]

theorem getMetricsMeta_log {μ : Type} (w : World μ) (log : List Request) (t : target) :
    (getMetricsMeta w log t).2 = log ++ metaRequests w [t] := by
  unfold getMetricsMeta metaRequests
  cases hreq : w.NewRequest (targetURL t) with
  | some err => simp [hreq]
  | none =>
    simp only [hreq]
    split
    · simp [hreq]
    · split
      · simp [hreq]
      · split
        · simp [hreq]
        · split <;> simp [hreq]

theorem printMetricsMetaLoop_skip {μ : Type} (w : World μ) (service : String)
    (pre rest : List target) (out : List String) (seen : List target)
    (hfail : ∀ i t, pre[i]? = some t → ∃ e, metaOutcome w (seen ++ pre.take i) t = .error e) :
    printMetricsMetaLoop w service (pre ++ rest) out (metaRequests w seen) =
      printMetricsMetaLoop w service rest out (metaRequests w (seen ++ pre)) := by
  induction pre generalizing seen with
  | nil => simp
  | cons t ts ih =>
    obtain ⟨e, he⟩ := hfail 0 t (by simp)
    simp only [List.take_zero, List.append_nil, metaOutcome] at he
    have hlog := getMetricsMeta_log w (metaRequests w seen) t
    have hrun : getMetricsMeta w (metaRequests w seen) t =
        (.error e, metaRequests w (seen ++ [t])) := by
      rw [metaRequests_append, ← hlog, ← he]
    have hrec := ih (seen ++ [t]) (fun i u hu => by
      have := hfail (i + 1) u (by simpa using hu)
      simpa using this)
    have hstep : printMetricsMetaLoop w service (t :: (ts ++ rest)) out (metaRequests w seen) =
        printMetricsMetaLoop w service (ts ++ rest) out (metaRequests w (seen ++ [t])) := by
      simp only [printMetricsMetaLoop, hrun]
    rw [List.cons_append, hstep, hrec]
    simp

theorem printMetricsMetaLoop_first {μ : Type} (w : World μ) (service : String)
    (pre post : List target) (t : target) (src : Meta μ) (out : List String)
    (hfail : ∀ i u, pre[i]? = some u → ∃ e, metaOutcome w (pre.take i) u = .error e)
    (hok : metaOutcome w pre t = .ok src) :
    printMetricsMetaLoop w service (pre ++ t :: post) out [] =
      match w.Marshal { Graphs := rewriteGraphs w.rangeGraphs service src.Graphs } with
      | .error err =>
        { stdout := out, panicked := some err, log := metaRequests w (pre ++ [t]) }
      | .ok b =>
        { stdout := out ++ [b], panicked := none, log := metaRequests w (pre ++ [t]) } := by
  have hskip := printMetricsMetaLoop_skip w service pre (t :: post) out []
    (by simpa using hfail)
  have h0 : metaRequests w ([] : List target) = [] := rfl
  rw [h0] at hskip
  rw [hskip]
  simp only [List.nil_append]
  have hlog := getMetricsMeta_log w (metaRequests w pre) t
  have hrun : getMetricsMeta w (metaRequests w pre) t =
      (.ok src, metaRequests w (pre ++ [t])) := by
    rw [metaRequests_append, ← hlog, ← hok, metaOutcome]
  simp only [printMetricsMetaLoop, hrun]

theorem printMetricsMetaLoop_none {μ : Type} (w : World μ) (service : String)
    (list : List target) (out : List String)
    (hfail : ∀ i u, list[i]? = some u → ∃ e, metaOutcome w (list.take i) u = .error e) :
    printMetricsMetaLoop w service list out [] =
      { stdout := out, panicked := none, log := metaRequests w list } := by
  have hskip := printMetricsMetaLoop_skip w service list [] out [] (by simpa using hfail)
  have h0 : metaRequests w ([] : List target) = [] := rfl
  rw [h0] at hskip
  simp only [List.append_nil] at hskip
  rw [hskip]
  simp [printMetricsMetaLoop]

/-! ## The metric collector -/

theorem flatten_perm_of_pop (queues : List (List String)) (i : Nat) (line : String)
    (rest : List String) (h : queues[i]? = some (line :: rest)) :
    queues.flatten.Perm (line :: (queues.set i rest).flatten) := by
  induction queues generalizing i with
  | nil => simp at h
  | cons q qs ih =>
    cases i with
    | zero =>
      simp only [List.getElem?_cons_zero, Option.some.injEq] at h
      subst h
      simp
    | succ j =>
      simp only [List.getElem?_cons_succ] at h
      have := ih j h
      simp only [List.flatten_cons, List.set_cons_succ]
      exact (List.Perm.append_left q this).trans List.perm_middle

theorem runGoroutines_perm (sched : List Nat) (queues : List (List String)) :
    (runGoroutines sched queues).Perm queues.flatten := by
  induction sched generalizing queues with
  | nil => simp [runGoroutines]
  | cons i sched ih =>
    unfold runGoroutines
    split
    · next line rest h =>
      exact ((ih _).cons line).trans (flatten_perm_of_pop queues i line rest h).symm
    · exact ih queues

/-- Every interleaving of the goroutines is the output under some schedule. -/
theorem runGoroutines_complete (queues : List (List String)) (out : List String)
    (h : Interleaving queues out) : ∃ sched, runGoroutines sched queues = out := by
  induction h with
  | done queues hq =>
    refine ⟨[], ?_⟩
    simp only [runGoroutines, List.flatten_eq_nil_iff]
    exact hq
  | step queues i line rest out hi _ ih =>
    obtain ⟨sched, hs⟩ := ih
    exact ⟨i :: sched, by simp [runGoroutines, hi, hs]⟩

theorem foldl_append_singleton {α β : Type} (f : α → β) (l : List α) (acc : List β) :
    l.foldl (fun out x => out ++ [f x]) acc = acc ++ l.map f := by
  induction l generalizing acc with
  | nil => simp
  | cons x xs ih => simp [ih]

theorem scanTokens_fst (e : Bool) (parts : List (List Char)) :
    (bufio.scanTokens e parts).1 =
      ((parts.dropLast.map (fun l => (l, true)) ++
          match parts.getLast? with
          | some last => if last = [] then [] else [(last, false)]
          | none => []).takeWhile (lineFits e)).map
        (fun l => String.mk (if l.1.getLast? = some '\r' then l.1.dropLast else l.1)) := by
  have hmax : bufio.MaxScanTokenSize = 65536 := by decide
  induction parts with
  | nil => simp [bufio.scanTokens]
  | cons part rest ih =>
    cases rest with
    | nil =>
      by_cases hp : part = []
      · simp [bufio.scanTokens, hp]
      · by_cases hfit : byteLen part < 65536 ∨ (byteLen part = 65536 ∧ e = true)
        · have hl : lineFits e (part, false) = true := by
            simpa [lineFits] using hfit
          simp [bufio.scanTokens, hp, hmax, hfit, hl, bufio.dropCR]
        · have hl : lineFits e (part, false) = false := by
            rw [Bool.eq_false_iff]
            simpa [lineFits] using hfit
          simp [bufio.scanTokens, hp, hmax, hfit, hl]
    | cons r rs =>
      by_cases hlong : 65536 ≤ byteLen part
      · have hl : lineFits e (part, true) = false := by
          simp [lineFits]
          omega
        simp [bufio.scanTokens, hmax, hlong, hl]
      · have hl : lineFits e (part, true) = true := by
          simp [lineFits]
          omega
        rw [bufio.scanTokens]
        simp only [List.isEmpty_cons, Bool.false_eq_true, if_false, hmax, hlong, ih]
        simp [hl, bufio.dropCR]

/-- The tokens of the scanner over a body are its lines before the first one that
does not fit, each without one trailing `\r`. -/
theorem Scanner_fst (e : Bool) (b : Body) :
    (bufio.Scanner e b).1 = writtenLines e b.data.data := by
  simp only [bufio.Scanner, writtenLines, textLines]
  exact scanTokens_fst e _

theorem splitChars_replicate (sep c : Char) (hc : c ≠ sep) (n : Nat) (tl : List Char) :
    strings.splitChars sep (List.replicate n c ++ sep :: tl) =
      List.replicate n c :: strings.splitChars sep tl := by
  induction n with
  | zero => simp [strings.splitChars]
  | succ k ih => simp [List.replicate_succ, strings.splitChars, hc, ih]

theorem byteLen_replicate_a (n : Nat) : byteLen (List.replicate n 'a') = n := by
  have h1 : Char.utf8Size 'a' = 1 := by decide
  simp [byteLen, List.map_replicate, List.sum_replicate, h1]

/-- A first line of 65536 bytes or more, ended by `\n`, stops the scanner: nothing of
the body is yielded. -/
theorem writtenLines_long (e : Bool) (n : Nat) (hn : 65536 ≤ n) (tl : List Char) :
    writtenLines e (List.replicate n 'a' ++ '\n' :: tl) = [] := by
  have hne : strings.splitChars '\n' tl ≠ [] := by
    obtain ⟨front, r, h, _⟩ := splitChars_last '\n' tl
    rw [h]
    simp
  obtain ⟨p, ps, hps⟩ := List.exists_cons_of_ne_nil hne
  have hfit : lineFits e (List.replicate n 'a', true) = false := by
    simp only [lineFits, byteLen_replicate_a, Bool.not_true, Bool.false_and, Bool.or_false,
      decide_eq_false_iff_not]
    omega
  simp only [writtenLines, textLines, splitChars_replicate '\n' 'a' (by decide), hps,
    List.dropLast_cons₂, List.map_cons, List.cons_append, List.takeWhile_cons, hfit]
  simp

theorem printMetricsWorker_eq {μ : Type} (w : World μ) (service : String) (it : Nat × target) :
    printMetricsWorker w service it.1 it.2 =
      if metricsOk w it then
        (bodyLines w it).map (fun line => service ++ "." ++ it.2.id ++ "." ++ line)
      else [] := by
  unfold printMetricsWorker metricsOk bodyLines
  cases hget : w.Get it.1 (targetURL it.2) with
  | error e => simp [hget]
  | ok res =>
    by_cases h1 : res.StatusCode = 200
    · by_cases h2 : res.ContentType = "text/plain"
      · simp [hget, h1, h2, foldl_append_singleton, Scanner_fst]
      · simp [hget, h1, h2]
    · simp [hget, h1]

theorem flatMap_if_filter {α β : Type} (l : List α) (p : α → Bool) (g : α → List β) :
    l.flatMap (fun x => if p x then g x else []) = (l.filter p).flatMap g := by
  induction l with
  | nil => simp
  | cons x xs ih => by_cases hp : p x <;> simp [List.flatMap_cons, ih, hp]

theorem printMetrics_perm {μ : Type} (w : World μ) (sched : List Nat) (service : String)
    (list : List target) :
    (printMetrics w sched service list).Perm
      ((list.enum.filter (metricsOk w)).flatMap (fun it =>
        (bodyLines w it).map (fun line => service ++ "." ++ it.2.id ++ "." ++ line))) := by
  unfold printMetrics
  refine (runGoroutines_perm sched _).trans ?_
  rw [← flatMap_if_filter]
  have : (list.enum.map (fun it => printMetricsWorker w service it.1 it.2)).flatten =
      list.enum.flatMap (fun it => printMetricsWorker w service it.1 it.2) := by
    simp [List.flatMap]
  rw [this]
  have hfun : (fun it : Nat × target => printMetricsWorker w service it.1 it.2) =
      (fun it => if metricsOk w it then
        (bodyLines w it).map (fun line => service ++ "." ++ it.2.id ++ "." ++ line)
      else []) := funext (printMetricsWorker_eq w service)
  rw [hfun]

/-! ## The ids of the targets -/

theorem getTargetList_targets (inv : Inventory) (c : config) (fuel : Nat)
    (log log2 : List Call) (ts : List target) (err : Option Error)
    (h : getTargetList inv c fuel log = (.returned (some ts, err), log2)) :
    ts = [] ∨ ∃ tasks log1 desc,
      listTasks inv c fuel log = (.returned (tasks, none), log1) ∧
      inv.DescribeTasks log1 c.cluster (tasks.getD []) = .ok desc ∧
      ((c.networkMode = "awsvpc" ∧
          ts = ((taskContainers desc.Tasks).filter (awsvpcMatch c)).map (awsvpcTarget c)) ∨
        (c.networkMode = "bridge" ∧ ∃ m,
          ts = ((taskBindings desc.Tasks).filter (bridgeMatch c m)).map (bridgeTarget m)) ∨
        (c.networkMode = "host" ∧ ∃ m,
          ts = (desc.Tasks.filter (hostMatch m)).map (hostTarget c m))) := by
  unfold getTargetList at h
  split at h
  · simp at h
  · simp at h
  · next tasks log1 hlist =>
    simp only at h
    split at h
    · left
      simp only [Prod.mk.injEq, Outcome.returned.injEq, Option.some.injEq] at h
      exact h.1.1.symm
    · split at h
      · simp at h
      · next desc hres =>
        split at h
        · next hmode =>
          right
          refine ⟨tasks, log1, desc, hlist, hres, Or.inl ⟨hmode, ?_⟩⟩
          simp only [Prod.mk.injEq, Outcome.returned.injEq, Option.some.injEq] at h
          rw [← h.1.1, awsvpcLoop_eq, List.nil_append]
        · split at h
          · next hmode =>
            split at h
            · simp at h
            · simp at h
            · next arnToAddr log3 hmap =>
              right
              refine ⟨tasks, log1, desc, hlist, hres,
                Or.inr (Or.inl ⟨hmode, arnToAddr.getD ∅, ?_⟩)⟩
              simp only [Prod.mk.injEq, Outcome.returned.injEq, Option.some.injEq] at h
              rw [← h.1.1, bridgeLoop_eq, List.nil_append]
          · split at h
            · next hmode =>
              split at h
              · simp at h
              · simp at h
              · next arnToAddr log3 hmap =>
                right
                refine ⟨tasks, log1, desc, hlist, hres,
                  Or.inr (Or.inr ⟨hmode, arnToAddr.getD ∅, ?_⟩)⟩
                simp only [Prod.mk.injEq, Outcome.returned.injEq, Option.some.injEq] at h
                rw [← h.1.1, hostLoop_eq, List.nil_append]
            · left
              simp only [Prod.mk.injEq, Outcome.returned.injEq, Option.some.injEq] at h
              exact h.1.1.symm

theorem ids_sublist (tasks : List Task) (g : Task → List target)
    (hg : ∀ t ∈ tasks, (g t).length ≤ 1 ∧ ∀ x ∈ g t, x.id = extractIDFromArn t.TaskArn) :
    ((tasks.flatMap g).map (fun x => x.id)).Sublist
      (tasks.map (fun t => extractIDFromArn t.TaskArn)) := by
  induction tasks with
  | nil => simp
  | cons t rest ih =>
    have hrest := ih (fun u hu => hg u (by simp [hu]))
    obtain ⟨hlen, hid⟩ := hg t (by simp)
    simp only [List.flatMap_cons, List.map_append, List.map_cons]
    match hgt : g t, hlen, hid with
    | [], _, _ => simpa using hrest.cons (extractIDFromArn t.TaskArn)
    | [x], _, hid =>
      have hx : x.id = extractIDFromArn t.TaskArn := hid x (by simp)
      simpa [hx] using hrest.cons₂ (extractIDFromArn t.TaskArn)
    | _ :: _ :: _, hlen, _ => simp at hlen

theorem printMetricsMetaLoop_stdout {μ : Type} (w : World μ) (service : String)
    (list : List target) (out : List String) (log : List Request) :
    ∃ rest, (printMetricsMetaLoop w service list out log).stdout = out ++ rest := by
  induction list generalizing log with
  | nil => exact ⟨[], by simp [printMetricsMetaLoop]⟩
  | cons t ts ih =>
    unfold printMetricsMetaLoop
    split
    · exact ih _
    · simp only
      split
      · exact ⟨[], by simp⟩
      · next b _ => exact ⟨[b], rfl⟩

theorem rewriteGraphs_empty {μ : Type} (ρ : RangeOrder (Graphs μ)) (service : String)
    (src : GoMap (Graphs μ)) (h : src.entries = []) : rewriteGraphs ρ service src = ∅ := by
  have hperm := rewriteGraphs_perm ρ service src
  rw [h, List.map_nil] at hperm
  exact AList.ext (by simpa using hperm.eq_nil)

/-! ## The claims -/

/-- C9: for every ARN (nil, empty, without `/`, ending in `/`, or any other), the
index `parts[len(parts)-1]` of `extractIDFromArn` is in range, and the result is the
trailing path segment: it holds no `/`, it is the whole ARN when the ARN holds no
`/`, and otherwise the ARN is some text, then `/`, then the result. -/
theorem extractIDFromArn_trailing_segment (arn : Option String) :
    extractIDFromArnChecked arn = some (extractIDFromArn arn) ∧
      '/' ∉ (extractIDFromArn arn).data ∧
      ('/' ∉ (aws.StringValue arn).data → aws.StringValue arn = extractIDFromArn arn) ∧
      ('/' ∈ (aws.StringValue arn).data →
        ∃ p : String, aws.StringValue arn = p ++ "/" ++ extractIDFromArn arn) := by
  obtain ⟨r, hr, hno, hform⟩ := extractIDFromArnChecked_spec arn
  have hid : extractIDFromArn arn = r := by simp [extractIDFromArn, hr]
  rw [hid]
  refine ⟨hr, hno, ?_, ?_⟩
  · intro hnone
    rcases hform with ⟨_, h⟩ | ⟨p, h⟩
    · exact h
    · exact absurd (by rw [h]; simp [String.data_append]) hnone
  · intro hsome
    rcases hform with ⟨h, _⟩ | h
    · exact absurd hsome h
    · exact h

/-- C5: when the first `k - 1` pages of `ListTasks` carry a non-empty token, the
`k`-th carries none or an empty one, and every call succeeds, `listTasks` (given
fuel for `k` iterations) issues exactly `k` calls, the first without a token and
each later one with the token of the page before, and returns the task ARNs of the
`k` pages concatenated in page order, with a nil error. -/
theorem listTasks_follows_pages (inv : Inventory) (c : config) (pages : List ListTasksOutput)
    (last : ListTasksOutput) (fuel : Nat) (log : List Call) (hfuel : pages.length < fuel)
    (hmore : ∀ p ∈ pages, ¬ (p.NextToken = none ∨ aws.StringValue p.NextToken = ""))
    (hlast : last.NextToken = none ∨ aws.StringValue last.NextToken = "")
    (hresp : ∀ i p, (pages ++ [last])[i]? = some p →
      inv.ListTasks (log ++ (listTasksCalls c pages).take i) c.cluster c.service
        ((none :: pages.map (fun p => p.NextToken)).getD i none) = .ok p) :
    listTasks inv c fuel log =
        (.returned (some ((pages ++ [last]).flatMap (fun p => p.TaskArns)), none),
          log ++ listTasksCalls c pages) ∧
      (listTasksCalls c pages).length = pages.length + 1 := by
  refine ⟨?_, by simp [listTasksCalls]⟩
  have h := listTasksLoop_pages inv c pages last fuel [] none log hfuel hmore hlast
    (fun i p hp => by
      have := hresp i p hp
      simpa [listTasksCalls, List.map_take] using this)
  simpa [listTasks, listTasksCalls] using h

/-- A run of C5 on three pages: exactly three calls, all ids aggregated. -/
theorem listTasks_follows_pages_witness :
    listTasks demoInv (demoConfig "host") 3 [] =
        (.returned (some [demoArn "t1", demoArn "t2", demoArn "t3"], none),
          [ .ListTasks "default" "web" none, .ListTasks "default" "web" (some "p2"),
            .ListTasks "default" "web" (some "p3") ]) ∧
      (listTasksCalls (demoConfig "host")
        [ { TaskArns := [demoArn "t1"], NextToken := some "p2" },
          { TaskArns := [demoArn "t2"], NextToken := some "p3" } ]).length = 3 :=
  listTasks_follows_pages demoInv (demoConfig "host")
    [ { TaskArns := [demoArn "t1"], NextToken := some "p2" },
      { TaskArns := [demoArn "t2"], NextToken := some "p3" } ]
    { TaskArns := [demoArn "t3"], NextToken := some "" } 3 [] (by decide) (by decide)
    (by decide)
    (fun i p hp => by
      match i, hp with
      | 0, hp => simp at hp; subst hp; rfl
      | 1, hp => simp at hp; subst hp; rfl
      | 2, hp => simp at hp; subst hp; rfl
      | n + 3, hp => simp at hp)

/-- C1: in `"bridge"` mode, when `listTasks` returns a non-empty list,
`DescribeTasks` returns `desc` and `createArnToAddrMap` returns the map `arnToAddr`,
`getTargetList` returns, with a nil error and in order, exactly one target per
(task, container, network binding) triple such that the container is named
`containerName`, the binding's container port is the configured port and the task's
container-instance ARN is a key of the map; the target's host is the mapped address
and its port the binding's host port. A task whose instance is not in the map gives
no target and no error. -/
theorem getTargetList_bridge (inv : Inventory) (c : config) (fuel : Nat)
    (log log1 log3 : List Call) (tasks : List (Option String)) (desc : DescribeTasksOutput)
    (arnToAddr : GoMap String)
    (hmode : c.networkMode = "bridge")
    (hlist : listTasks inv c fuel log = (.returned (some tasks, none), log1))
    (hne : tasks ≠ [])
    (hdesc : inv.DescribeTasks log1 c.cluster tasks = .ok desc)
    (hmap : createArnToAddrMap inv c fuel (log1 ++ [Call.DescribeTasks c.cluster tasks])
      desc.Tasks = (.returned (some arnToAddr, none), log3)) :
    getTargetList inv c fuel log =
      (.returned
          (some (((taskBindings desc.Tasks).filter (bridgeMatch c arnToAddr)).map
            (bridgeTarget arnToAddr)), none),
        log3) := by
  have h1 : ("bridge" : String) ≠ "awsvpc" := by decide
  unfold getTargetList
  rw [hlist]
  simp [hne, hdesc, hmode, h1, hmap, bridgeLoop_eq]

/-- A run of C1: of the three tasks only `t1` has a container `app` with a binding
of port 8080 on a resolved instance; `t3` is on an instance the map lacks. -/
theorem getTargetList_bridge_witness :
    getTargetList demoInv (demoConfig "bridge") 3 [] =
      (.returned (some [{ id := "t1", host := "10.0.0.1", port := 32768 }], none),
        demoCalls) :=
  getTargetList_bridge demoInv (demoConfig "bridge") 3 []
    [ .ListTasks "default" "web" none, .ListTasks "default" "web" (some "p2"),
      .ListTasks "default" "web" (some "p3") ]
    demoCalls [demoArn "t1", demoArn "t2", demoArn "t3"] { Tasks := demoTasks } demoAddrMap
    rfl (by decide) (by decide) rfl rfl

/-- C2: in `"host"` mode, when `listTasks` returns a non-empty list, `DescribeTasks`
returns `desc` and `createArnToAddrMap` returns the map `arnToAddr`, `getTargetList`
returns, with a nil error and in task order, exactly one target per task whose
container-instance ARN is a key of the map, whatever its containers are named; the
target's host is the mapped address and its port the configured port. -/
theorem getTargetList_host (inv : Inventory) (c : config) (fuel : Nat)
    (log log1 log3 : List Call) (tasks : List (Option String)) (desc : DescribeTasksOutput)
    (arnToAddr : GoMap String)
    (hmode : c.networkMode = "host")
    (hlist : listTasks inv c fuel log = (.returned (some tasks, none), log1))
    (hne : tasks ≠ [])
    (hdesc : inv.DescribeTasks log1 c.cluster tasks = .ok desc)
    (hmap : createArnToAddrMap inv c fuel (log1 ++ [Call.DescribeTasks c.cluster tasks])
      desc.Tasks = (.returned (some arnToAddr, none), log3)) :
    getTargetList inv c fuel log =
      (.returned
          (some ((desc.Tasks.filter (hostMatch arnToAddr)).map (hostTarget c arnToAddr)), none),
        log3) := by
  have h1 : ("host" : String) ≠ "awsvpc" := by decide
  have h2 : ("host" : String) ≠ "bridge" := by decide
  unfold getTargetList
  rw [hlist]
  simp [hne, hdesc, hmode, h1, h2, hmap, hostLoop_eq]

/-- A run of C2: `t2` has no container named `app` and still gives a target; `t3` is
on an instance the map lacks and gives none. -/
theorem getTargetList_host_witness :
    getTargetList demoInv (demoConfig "host") 3 [] =
      (.returned
          (some [ { id := "t1", host := "10.0.0.1", port := 8080 },
                  { id := "t2", host := "10.0.0.2", port := 8080 } ], none),
        demoCalls) :=
  getTargetList_host demoInv (demoConfig "host") 3 []
    [ .ListTasks "default" "web" none, .ListTasks "default" "web" (some "p2"),
      .ListTasks "default" "web" (some "p3") ]
    demoCalls [demoArn "t1", demoArn "t2", demoArn "t3"] { Tasks := demoTasks } demoAddrMap
    rfl (by decide) (by decide) rfl rfl

/-- C3: in `"awsvpc"` mode, when `listTasks` returns a non-empty list and
`DescribeTasks` returns `desc`, `getTargetList` returns, with a nil error and in
order, exactly one target per (task, container) pair such that the container is named
`containerName` and has at least one network interface; the target's host is the
private IPv4 address of the first interface and its port the configured port. No
host-address map is built. -/
theorem getTargetList_awsvpc (inv : Inventory) (c : config) (fuel : Nat)
    (log log1 : List Call) (tasks : List (Option String)) (desc : DescribeTasksOutput)
    (hmode : c.networkMode = "awsvpc")
    (hlist : listTasks inv c fuel log = (.returned (some tasks, none), log1))
    (hne : tasks ≠ [])
    (hdesc : inv.DescribeTasks log1 c.cluster tasks = .ok desc) :
    getTargetList inv c fuel log =
      (.returned
          (some (((taskContainers desc.Tasks).filter (awsvpcMatch c)).map (awsvpcTarget c)),
            none),
        log1 ++ [Call.DescribeTasks c.cluster tasks]) := by
  unfold getTargetList
  rw [hlist]
  simp [hne, hdesc, hmode, awsvpcLoop_eq]

/-- A run of C3: the port is 8080 as configured, not a port of the description. -/
theorem getTargetList_awsvpc_witness :
    getTargetList demoInv (demoConfig "awsvpc") 3 [] =
      (.returned (some [{ id := "t1", host := "172.16.0.1", port := 8080 }], none),
        [ .ListTasks "default" "web" none, .ListTasks "default" "web" (some "p2"),
          .ListTasks "default" "web" (some "p3"),
          .DescribeTasks "default" [demoArn "t1", demoArn "t2", demoArn "t3"] ]) :=
  getTargetList_awsvpc demoInv (demoConfig "awsvpc") 3 []
    [ .ListTasks "default" "web" none, .ListTasks "default" "web" (some "p2"),
      .ListTasks "default" "web" (some "p3") ]
    [demoArn "t1", demoArn "t2", demoArn "t3"] { Tasks := demoTasks }
    rfl (by decide) (by decide) rfl

/-- C4: in every network mode, as soon as a call the resolver issues (a `ListTasks`
page, `DescribeTasks`, `DescribeContainerInstances` or a `DescribeInstances` page) is
answered with an error, no further call is issued and `getTargetList` returns that
error with a nil target list, whatever was gathered before. -/
theorem getTargetList_error_aborts (inv : Inventory) (c : config) (fuel : Nat)
    (log pre post : List Call) (call : Call) (e : Error)
    (hlog : (getTargetList inv c fuel log).2 = log ++ pre ++ call :: post)
    (herr : inv.errorOf (log ++ pre) call = some e) :
    post = [] ∧ (getTargetList inv c fuel log).1 = .returned (none, some e) :=
  RunInv_abort inv log pre post call e _ (getTargetList_inv inv c fuel log) hlog herr

/-- A run of C4: the second page of `ListTasks` fails after the first page brought a
task ARN; the error is returned with a nil list. -/
theorem getTargetList_error_aborts_witness :
    ([] : List Call) = [] ∧
      (getTargetList failingInv (demoConfig "host") 3 []).1 =
        .returned (none, some "ThrottlingException") :=
  getTargetList_error_aborts failingInv (demoConfig "host") 3 []
    [.ListTasks "default" "web" none] [] (.ListTasks "default" "web" (some "p2"))
    "ThrottlingException" (by decide) (by decide)

/-- C8, as the claim states it, fails in two ways, each with pairwise distinct task
ARNs. One task whose container `app` binds container port 8080 twice gives, in
`"bridge"` mode, two targets with the same id `t1`; and two tasks whose distinct ARNs
end in the same segment give, in `"host"` mode, two targets with the same id. -/
theorem getTargetList_ids_counterexample :
    ((∀ hist cl arns desc, twoBindingsInv.DescribeTasks hist cl arns = .ok desc →
        (desc.Tasks.map (fun t => t.TaskArn)).Nodup) ∧
      getTargetList twoBindingsInv (demoConfig "bridge") 1 [] =
        (.returned
            (some [ { id := "t1", host := "10.0.0.1", port := 32768 },
                    { id := "t1", host := "10.0.0.1", port := 32769 } ], none),
          [ .ListTasks "default" "web" none, .DescribeTasks "default" [demoArn "t1"],
            .DescribeContainerInstances "default" ["ci/1"],
            .DescribeInstances ["i-1"] none ]) ∧
      ¬ (([ { id := "t1", host := "10.0.0.1", port := 32768 },
            { id := "t1", host := "10.0.0.1", port := 32769 } ] : List target).map
          (fun x => x.id)).Nodup) ∧
    ((∀ hist cl arns desc, sameSegmentInv.DescribeTasks hist cl arns = .ok desc →
        (desc.Tasks.map (fun t => t.TaskArn)).Nodup) ∧
      (getTargetList sameSegmentInv (demoConfig "host") 1 []).1 =
        .returned
          (some [ { id := "t1", host := "10.0.0.1", port := 8080 },
                  { id := "t1", host := "10.0.0.2", port := 8080 } ], none) ∧
      ¬ (([ { id := "t1", host := "10.0.0.1", port := 8080 },
            { id := "t1", host := "10.0.0.2", port := 8080 } ] : List target).map
          (fun x => x.id)).Nodup) := by
  refine ⟨⟨?_, by decide, by decide⟩, ⟨?_, by decide, by decide⟩⟩
  · intro hist cl arns desc h
    simp only [twoBindingsInv, Except.ok.injEq] at h
    subst h
    decide
  · intro hist cl arns desc h
    simp only [sameSegmentInv, Except.ok.injEq] at h
    subst h
    decide

/-- C8, amended: in every network mode, when the response `desc` that the run
receives from `DescribeTasks` has task ARNs whose trailing path segments are
pairwise distinct and no task of it holds more than one match (`taskMatches`), the
ids of the targets the call of `getTargetList` returns are pairwise distinct. -/
theorem getTargetList_ids_nodup (inv : Inventory) (c : config) (fuel : Nat)
    (log log1 log2 : List Call) (tasks : List (Option String)) (desc : DescribeTasksOutput)
    (ts : List target) (err : Option Error)
    (hlist : listTasks inv c fuel log = (.returned (some tasks, none), log1))
    (hdesc : inv.DescribeTasks log1 c.cluster tasks = .ok desc)
    (hnodup : (desc.Tasks.map (fun t => extractIDFromArn t.TaskArn)).Nodup)
    (hone : ∀ t ∈ desc.Tasks, taskMatches c t ≤ 1)
    (h : getTargetList inv c fuel log = (.returned (some ts, err), log2)) :
    (ts.map (fun x => x.id)).Nodup := by
  rcases getTargetList_targets inv c fuel log log2 ts err h with
    hnil | ⟨tasks2, log3, desc2, hlist2, hd, hcase⟩
  · simp [hnil]
  · rw [hlist] at hlist2
    simp only [Prod.mk.injEq, Outcome.returned.injEq, and_true] at hlist2
    obtain ⟨htasks, hlog⟩ := hlist2
    subst htasks hlog
    simp only [Option.getD_some] at hd
    rw [hdesc] at hd
    simp only [Except.ok.injEq] at hd
    subst hd
    rcases hcase with ⟨hmode, hts⟩ | ⟨hmode, m, hts⟩ | ⟨hmode, m, hts⟩
    · rw [hts, taskContainers, filter_map_flatMap]
      refine (ids_sublist desc.Tasks _ (fun t ht => ⟨?_, ?_⟩)).nodup hnodup
      · have := hone t ht
        simpa [taskMatches, hmode, taskContainers] using this
      · intro x hx
        simp only [List.mem_map, List.mem_filter] at hx
        obtain ⟨tc, ⟨⟨cn, _, hcn⟩, _⟩, hx⟩ := hx
        rw [← hx, ← hcn, awsvpcTarget]
    · rw [hts, taskBindings, filter_map_flatMap]
      have h1 : ("bridge" : String) ≠ "awsvpc" := by decide
      refine (ids_sublist desc.Tasks _ (fun t ht => ⟨?_, ?_⟩)).nodup hnodup
      · have := hone t ht
        simp only [taskMatches, hmode, h1, if_false, if_true, taskBindings,
          List.flatMap_cons, List.flatMap_nil, List.append_nil] at this
        rw [List.length_map]
        refine le_trans ?_ this
        rw [← List.countP_eq_length_filter, ← List.countP_eq_length_filter]
        apply List.countP_mono_left
        intro tcb _ htcb
        simp only [bridgeMatch, Bool.and_eq_true] at htcb
        simp only [Bool.and_eq_true]
        exact htcb.1
      · intro x hx
        simp only [List.mem_map, List.mem_filter, List.mem_flatMap] at hx
        obtain ⟨tcb, ⟨⟨cn, _, b, _, hb⟩, _⟩, hx⟩ := hx
        rw [← hx, ← hb, bridgeTarget]
    · rw [hts]
      have hflat := filter_map_flatMap desc.Tasks (fun t => [t]) (hostMatch m) (hostTarget c m)
      simp only [List.flatMap_singleton'] at hflat
      rw [hflat]
      refine (ids_sublist desc.Tasks _ (fun t ht => ⟨?_, ?_⟩)).nodup hnodup
      · rw [List.length_map]
        exact le_trans (List.length_filter_le _ _) (by simp)
      · intro x hx
        simp only [List.mem_map, List.mem_filter, List.mem_singleton] at hx
        obtain ⟨u, ⟨hu, _⟩, hx⟩ := hx
        rw [← hx, hu, hostTarget]

/-- A run of the amended C8 in `"bridge"` mode: two tasks, each with one binding of
port 8080 on its container `app` (and other bindings besides), give two targets with
the ids `t1` and `t2`. -/
theorem getTargetList_ids_nodup_witness :
    (([ { id := "t1", host := "10.0.0.1", port := 32768 },
        { id := "t2", host := "10.0.0.2", port := 32769 } ] : List target).map
      (fun x => x.id)).Nodup :=
  getTargetList_ids_nodup twoAppsInv (demoConfig "bridge") 1 []
    [.ListTasks "default" "web" none]
    [ .ListTasks "default" "web" none,
      .DescribeTasks "default" [demoArn "t1", demoArn "t2"],
      .DescribeContainerInstances "default" ["ci/2", "ci/1"],
      .DescribeInstances ["i-1", "i-2"] none ]
    [demoArn "t1", demoArn "t2"] { Tasks := twoAppsTasks }
    [ { id := "t1", host := "10.0.0.1", port := 32768 },
      { id := "t2", host := "10.0.0.2", port := 32769 } ] none
    rfl rfl (by decide) (by decide) (by decide)

/-- C6: `printMetricsMeta` writes the marker line first, whatever happens next. When
the targets before `t` all fail at their turn and `t` answers with the document
`src`, it writes after the marker exactly one document, the encoding of the graphs
of `src` with every key `k` replaced by `service.#.k` and every label `l` by
`[service] l` (as many graphs, unit and metrics as they were), and it has sent one
request to each target up to `t` and none to a later one. When every target fails
only the marker line is written. (`json.Marshal` is taken not to fail.) -/
theorem printMetricsMeta_first_success {μ : Type} (w : World μ) (service : String)
    (list : List target) (hM : ∀ m, ∃ b, w.Marshal m = .ok b) :
    (printMetricsMeta w service list).stdout.head? = some "# mackerel-agent-plugin" ∧
      (∀ pre t post src, list = pre ++ t :: post →
        (∀ i u, pre[i]? = some u → ∃ e, metaOutcome w (pre.take i) u = .error e) →
        metaOutcome w pre t = .ok src →
        ∃ dst b, dst.entries.Perm (src.Graphs.entries.map (rewriteEntry service)) ∧
          w.Marshal { Graphs := dst } = .ok b ∧
          printMetricsMeta w service list =
            { stdout := ["# mackerel-agent-plugin", b], panicked := none,
              log := metaRequests w (pre ++ [t]) }) ∧
      ((∀ i u, list[i]? = some u → ∃ e, metaOutcome w (list.take i) u = .error e) →
        printMetricsMeta w service list =
          { stdout := ["# mackerel-agent-plugin"], panicked := none,
            log := metaRequests w list }) := by
  refine ⟨?_, ?_, ?_⟩
  · obtain ⟨rest, h⟩ :=
      printMetricsMetaLoop_stdout w service list ["# mackerel-agent-plugin"] []
    simp [printMetricsMeta, h]
  · intro pre t post src hlist hfail hok
    obtain ⟨b, hb⟩ := hM { Graphs := rewriteGraphs w.rangeGraphs service src.Graphs }
    refine ⟨_, b, rewriteGraphs_perm w.rangeGraphs service src.Graphs, hb, ?_⟩
    rw [hlist, printMetricsMeta, printMetricsMetaLoop_first w service pre post t src _ hfail hok,
      hb]
    rfl
  · intro hfail
    exact printMetricsMetaLoop_none w service list _ hfail

/-- A run of C6 on three targets: the first refuses the connection, the second
serves the graph `g1`, the third (serving `g2`) is never asked. -/
theorem printMetricsMeta_first_success_witness :
    ∃ dst b,
      dst.entries.Perm
          ((demoMeta "g1" "Graph 1").Graphs.entries.map (rewriteEntry "web")) ∧
        demoWorld.Marshal { Graphs := dst } = .ok b ∧
        printMetricsMeta demoWorld "web"
            [demoTarget "t1" "10.0.0.1", demoTarget "t2" "10.0.0.2",
              demoTarget "t3" "10.0.0.3"] =
          { stdout := ["# mackerel-agent-plugin", b], panicked := none,
            log := metaRequests demoWorld
              ([demoTarget "t1" "10.0.0.1"] ++ [demoTarget "t2" "10.0.0.2"]) } :=
  (printMetricsMeta_first_success demoWorld "web"
      [demoTarget "t1" "10.0.0.1", demoTarget "t2" "10.0.0.2", demoTarget "t3" "10.0.0.3"]
      (fun m => ⟨demoRender m, rfl⟩)).2.1
    [demoTarget "t1" "10.0.0.1"] (demoTarget "t2" "10.0.0.2") [demoTarget "t3" "10.0.0.3"]
    (demoMeta "g1" "Graph 1") rfl
    (fun i u hu => by
      match i, hu with
      | 0, hu => simp at hu; subst hu; exact ⟨"connection refused", rfl⟩
      | n + 1, hu => simp at hu)
    rfl

/-- C10, as the claim states it, fails: the first target answers with a document of
zero graphs and the second one serves the graph `g1`; the document written is the
one without graphs, and the second target is never asked. -/
theorem printMetricsMeta_empty_first_counterexample :
    metaOutcome demoWorld [] (demoTarget "t4" "10.0.0.4") = .ok { Graphs := ∅ } ∧
      metaOutcome demoWorld [demoTarget "t4" "10.0.0.4"] (demoTarget "t2" "10.0.0.2") =
        .ok (demoMeta "g1" "Graph 1") ∧
      (demoMeta "g1" "Graph 1").Graphs.entries ≠ [] ∧
      demoWorld.Marshal
          { Graphs := rewriteGraphs demoWorld.rangeGraphs "web" (demoMeta "g1" "Graph 1").Graphs } =
        .ok "web.#.g1=[web] Graph 1,integer" ∧
      printMetricsMeta demoWorld "web"
          [demoTarget "t4" "10.0.0.4", demoTarget "t2" "10.0.0.2"] =
        { stdout := ["# mackerel-agent-plugin", ""], panicked := none,
          log := [demoRequest "10.0.0.4"] } :=
  ⟨rfl, rfl, by decide, rfl, by decide⟩

/-- C10, amended: the document `printMetricsMeta` writes comes from the first target
in list order whose result is successful, empty or not: when that target answers
with a document of zero graphs, the document written is the one without graphs and
no later target is asked. -/
theorem printMetricsMeta_empty_document_taken {μ : Type} (w : World μ) (service : String)
    (pre post : List target) (t : target) (src : Meta μ) (b : String)
    (hfail : ∀ i u, pre[i]? = some u → ∃ e, metaOutcome w (pre.take i) u = .error e)
    (hok : metaOutcome w pre t = .ok src) (hempty : src.Graphs.entries = [])
    (hb : w.Marshal { Graphs := ∅ } = .ok b) :
    printMetricsMeta w service (pre ++ t :: post) =
      { stdout := ["# mackerel-agent-plugin", b], panicked := none,
        log := metaRequests w (pre ++ [t]) } := by
  rw [printMetricsMeta, printMetricsMetaLoop_first w service pre post t src _ hfail hok,
    rewriteGraphs_empty w.rangeGraphs service src.Graphs hempty, hb]
  rfl

/-- A run of the amended C10: the document without graphs of the first target is
written, the second target is not asked. -/
theorem printMetricsMeta_empty_document_taken_witness :
    printMetricsMeta demoWorld "web"
        ([] ++ demoTarget "t4" "10.0.0.4" :: [demoTarget "t2" "10.0.0.2"]) =
      { stdout := ["# mackerel-agent-plugin", ""], panicked := none,
        log := metaRequests demoWorld ([] ++ [demoTarget "t4" "10.0.0.4"]) } :=
  printMetricsMeta_empty_document_taken demoWorld "web" [] [demoTarget "t2" "10.0.0.2"]
    (demoTarget "t4" "10.0.0.4") { Graphs := ∅ } "" (fun i u hu => by simp at hu) rfl rfl rfl

/-- C7, as the claim states it, fails: a target answers the GET with status 200,
content type `text/plain` and a body whose first line has 65536 bytes and whose next
lines are `ok` and `end`; `ok` is a line of that body, and under every schedule
`printMetrics` writes nothing at all, so `web.t2.ok` is not written. -/
theorem printMetrics_long_line_counterexample :
    metricsOk longLineWorld (0, demoTarget "t2" "10.0.0.2") = true ∧
      "ok" ∈ strings.Split longLineBody.data '\n' ∧
      ∀ sched, printMetrics longLineWorld sched "web" [demoTarget "t2" "10.0.0.2"] = [] := by
  refine ⟨rfl, ?_, fun sched => ?_⟩
  · show "ok" ∈ (strings.splitChars '\n'
      (List.replicate 65536 'a' ++ '\n' :: ['o', 'k', '\n', 'e', 'n', 'd', '\n'])).map String.mk
    rw [splitChars_replicate '\n' 'a' (by decide), List.map_cons]
    exact List.mem_cons_of_mem _ (by decide)
  · have hget : longLineWorld.Get 0 (targetURL (demoTarget "t2" "10.0.0.2")) =
        .ok { StatusCode := 200, ContentType := "text/plain", MetaHeader := "",
              Body := longLineBody } := rfl
    have hlines : bodyLines longLineWorld (0, demoTarget "t2" "10.0.0.2") = [] := by
      simp only [bodyLines, hget]
      exact writtenLines_long _ 65536 (le_refl _) _
    have hw : printMetricsWorker longLineWorld "web" 0 (demoTarget "t2" "10.0.0.2") = [] := by
      rw [printMetricsWorker_eq longLineWorld "web" (0, demoTarget "t2" "10.0.0.2"), hlines]
      simp
    have hperm := runGoroutines_perm sched
      ([demoTarget "t2" "10.0.0.2"].enum.map
        (fun it => printMetricsWorker longLineWorld "web" it.1 it.2))
    have hq : ([demoTarget "t2" "10.0.0.2"].enum.map
        (fun it => printMetricsWorker longLineWorld "web" it.1 it.2)).flatten = [] := by
      simp [List.enum, List.enumFrom, hw]
    rw [hq] at hperm
    exact hperm.eq_nil

/-- C7, amended: under every schedule of the goroutines, the lines `printMetrics`
writes to standard output are, as a multiset, exactly the lines `service.id.line` for
the targets whose GET returned status 200 with content type `text/plain` and the
lines `bufio.Scanner` yields over their bodies: the lines of the body (ended by `\n`,
or the non-empty rest after the last `\n`), each without one trailing `\r`, that come
before the first line of 65536 bytes or more (a last line of exactly 65536 bytes
without `\n` still counts when the stream ends with its last bytes); the lines from
that one on are not written. A body whose lines are all shorter than 65536 bytes is
written whole. A target whose fetch failed adds nothing and takes nothing from the
others, and when every fetch fails the output is empty. The call always completes. -/
theorem printMetrics_written_lines {μ : Type} (w : World μ) (sched : List Nat)
    (service : String) (list : List target) :
    Multiset.ofList (printMetrics w sched service list) =
        Multiset.ofList ((list.enum.filter (metricsOk w)).flatMap (fun it =>
          (bodyLines w it).map (fun line => service ++ "." ++ it.2.id ++ "." ++ line))) ∧
      ((∀ it ∈ list.enum, metricsOk w it = false) →
        printMetrics w sched service list = []) ∧
      (∀ e data, (∀ l ∈ textLines data, byteLen l.1 < 65536) →
        writtenLines e data = (textLines data).map
          (fun l => String.mk (if l.1.getLast? = some '\r' then l.1.dropLast else l.1))) := by
  have hperm := printMetrics_perm w sched service list
  refine ⟨Multiset.coe_eq_coe.2 hperm, fun hall => ?_, fun e data hshort => ?_⟩
  · have hnone : list.enum.filter (metricsOk w) = [] := by
      rw [List.filter_eq_nil_iff]
      intro it hit
      simp [hall it hit]
    rw [hnone] at hperm
    simpa using hperm
  · have hall : (textLines data).takeWhile (lineFits e) = textLines data := by
      rw [List.takeWhile_eq_self_iff]
      intro l hl
      simp [lineFits, hshort l hl]
    rw [writtenLines, hall]

/-- A run of the amended C7 on three targets: the first refuses the connection, the
second serves three lines (one ended by `\r\n`, the last one without `\n`), the third
answers with another content type. -/
theorem printMetrics_written_lines_witness :
    Multiset.ofList (printMetrics demoWorld [1, 1] "web"
        [demoTarget "t1" "10.0.0.1", demoTarget "t2" "10.0.0.2",
          demoTarget "t3" "10.0.0.3"]) =
      Multiset.ofList ["web.t2.cpu\t1\t0", "web.t2.mem\t2\t0", "web.t2.load\t3\t0"] :=
  (printMetrics_written_lines demoWorld [1, 1] "web"
    [demoTarget "t1" "10.0.0.1", demoTarget "t2" "10.0.0.2", demoTarget "t3" "10.0.0.3"]).1

end EcsTaskMetrics
